import Mathlib

set_option autoImplicit false

/-!
Shallow embedding of the advocate-data-analyser ingestion pipeline.

Source files embedded:
  - src/utilities/cleaning_utils.py   (CleaningUtils)
  - src/models/advocate.py, advocacy_program.py, advocacy_task.py (pydantic models)
  - src/pipeline/ingest_stats.py      (IngestStats)
  - src/pipeline/advocate_ingester.py (AdvocateIngester)

Python values that flow through the pipeline are modelled by `PyVal`
(JSON scalars/containers plus `datetime` objects, which appear in cleaned
records).  Functions that can raise return `Except PyErr _`; a caught
exception is rendered by the surrounding `try/except` structure exactly as
in the source.  Library calls (str.strip, str.lower, int(), float(),
datetime.fromisoformat, urllib.parse.urlparse) are modelled by executable
Lean functions on their ASCII/common-format fragment, which covers every
value the claims touch.
-/

/-- Python exceptions that the embedded code can raise (uncaught). -/
inductive PyErr where
  | typeError
  | attributeError
  deriving DecidableEq, Repr

/-- A `datetime.datetime` object: date, time, optional UTC offset in minutes. -/
structure PyDateTime where
  year : Nat
  month : Nat
  day : Nat
  hour : Nat
  minute : Nat
  second : Nat
  tzOffsetMinutes : Option Int
  deriving DecidableEq, Repr

/-- A Python float, modelled as an exact (possibly unnormalized) fraction.
Python floats are binary IEEE doubles; the pipeline only ever creates them
from decimal text, integers and the `0.0` fallback, compares them with
zero, and truncates them, so an exact fraction is a faithful model on the
values the claims touch.  `den` is always positive. -/
structure PyFloat where
  num : Int
  den : Nat
  deriving DecidableEq, Repr

/-- The float `0.0`. -/
def PyFloat.zero : PyFloat := ⟨0, 1⟩

/-- `float(int)`. -/
def PyFloat.ofInt (n : Int) : PyFloat := ⟨n, 1⟩

/-- Python values reachable in the pipeline: JSON data plus datetime objects. -/
inductive PyVal where
  | none
  | bool (b : Bool)
  | int (n : Int)
  | float (q : PyFloat)
  | str (s : String)
  | list (xs : List PyVal)
  | dict (kvs : List (String × PyVal))
  | date (d : PyDateTime)

mutual

/-- Decidable equality for the nested `PyVal` type (deriving does not
handle nested inductives in this toolchain). -/
def pvDecEq : (a b : PyVal) → Decidable (a = b)
  | .none, .none => isTrue rfl
  | .bool a, .bool b =>
    match decEq a b with
    | isTrue h => isTrue (by rw [h])
    | isFalse h => isFalse (fun he => h (PyVal.bool.inj he))
  | .int a, .int b =>
    match decEq a b with
    | isTrue h => isTrue (by rw [h])
    | isFalse h => isFalse (fun he => h (PyVal.int.inj he))
  | .float a, .float b =>
    match decEq a b with
    | isTrue h => isTrue (by rw [h])
    | isFalse h => isFalse (fun he => h (PyVal.float.inj he))
  | .str a, .str b =>
    match decEq a b with
    | isTrue h => isTrue (by rw [h])
    | isFalse h => isFalse (fun he => h (PyVal.str.inj he))
  | .list a, .list b =>
    match plDecEq a b with
    | isTrue h => isTrue (by rw [h])
    | isFalse h => isFalse (fun he => h (PyVal.list.inj he))
  | .dict a, .dict b =>
    match pdDecEq a b with
    | isTrue h => isTrue (by rw [h])
    | isFalse h => isFalse (fun he => h (PyVal.dict.inj he))
  | .date a, .date b =>
    match decEq a b with
    | isTrue h => isTrue (by rw [h])
    | isFalse h => isFalse (fun he => h (PyVal.date.inj he))
  | .none, .bool _ => isFalse (fun h => PyVal.noConfusion h)
  | .none, .int _ => isFalse (fun h => PyVal.noConfusion h)
  | .none, .float _ => isFalse (fun h => PyVal.noConfusion h)
  | .none, .str _ => isFalse (fun h => PyVal.noConfusion h)
  | .none, .list _ => isFalse (fun h => PyVal.noConfusion h)
  | .none, .dict _ => isFalse (fun h => PyVal.noConfusion h)
  | .none, .date _ => isFalse (fun h => PyVal.noConfusion h)
  | .bool _, .none => isFalse (fun h => PyVal.noConfusion h)
  | .bool _, .int _ => isFalse (fun h => PyVal.noConfusion h)
  | .bool _, .float _ => isFalse (fun h => PyVal.noConfusion h)
  | .bool _, .str _ => isFalse (fun h => PyVal.noConfusion h)
  | .bool _, .list _ => isFalse (fun h => PyVal.noConfusion h)
  | .bool _, .dict _ => isFalse (fun h => PyVal.noConfusion h)
  | .bool _, .date _ => isFalse (fun h => PyVal.noConfusion h)
  | .int _, .none => isFalse (fun h => PyVal.noConfusion h)
  | .int _, .bool _ => isFalse (fun h => PyVal.noConfusion h)
  | .int _, .float _ => isFalse (fun h => PyVal.noConfusion h)
  | .int _, .str _ => isFalse (fun h => PyVal.noConfusion h)
  | .int _, .list _ => isFalse (fun h => PyVal.noConfusion h)
  | .int _, .dict _ => isFalse (fun h => PyVal.noConfusion h)
  | .int _, .date _ => isFalse (fun h => PyVal.noConfusion h)
  | .float _, .none => isFalse (fun h => PyVal.noConfusion h)
  | .float _, .bool _ => isFalse (fun h => PyVal.noConfusion h)
  | .float _, .int _ => isFalse (fun h => PyVal.noConfusion h)
  | .float _, .str _ => isFalse (fun h => PyVal.noConfusion h)
  | .float _, .list _ => isFalse (fun h => PyVal.noConfusion h)
  | .float _, .dict _ => isFalse (fun h => PyVal.noConfusion h)
  | .float _, .date _ => isFalse (fun h => PyVal.noConfusion h)
  | .str _, .none => isFalse (fun h => PyVal.noConfusion h)
  | .str _, .bool _ => isFalse (fun h => PyVal.noConfusion h)
  | .str _, .int _ => isFalse (fun h => PyVal.noConfusion h)
  | .str _, .float _ => isFalse (fun h => PyVal.noConfusion h)
  | .str _, .list _ => isFalse (fun h => PyVal.noConfusion h)
  | .str _, .dict _ => isFalse (fun h => PyVal.noConfusion h)
  | .str _, .date _ => isFalse (fun h => PyVal.noConfusion h)
  | .list _, .none => isFalse (fun h => PyVal.noConfusion h)
  | .list _, .bool _ => isFalse (fun h => PyVal.noConfusion h)
  | .list _, .int _ => isFalse (fun h => PyVal.noConfusion h)
  | .list _, .float _ => isFalse (fun h => PyVal.noConfusion h)
  | .list _, .str _ => isFalse (fun h => PyVal.noConfusion h)
  | .list _, .dict _ => isFalse (fun h => PyVal.noConfusion h)
  | .list _, .date _ => isFalse (fun h => PyVal.noConfusion h)
  | .dict _, .none => isFalse (fun h => PyVal.noConfusion h)
  | .dict _, .bool _ => isFalse (fun h => PyVal.noConfusion h)
  | .dict _, .int _ => isFalse (fun h => PyVal.noConfusion h)
  | .dict _, .float _ => isFalse (fun h => PyVal.noConfusion h)
  | .dict _, .str _ => isFalse (fun h => PyVal.noConfusion h)
  | .dict _, .list _ => isFalse (fun h => PyVal.noConfusion h)
  | .dict _, .date _ => isFalse (fun h => PyVal.noConfusion h)
  | .date _, .none => isFalse (fun h => PyVal.noConfusion h)
  | .date _, .bool _ => isFalse (fun h => PyVal.noConfusion h)
  | .date _, .int _ => isFalse (fun h => PyVal.noConfusion h)
  | .date _, .float _ => isFalse (fun h => PyVal.noConfusion h)
  | .date _, .str _ => isFalse (fun h => PyVal.noConfusion h)
  | .date _, .list _ => isFalse (fun h => PyVal.noConfusion h)
  | .date _, .dict _ => isFalse (fun h => PyVal.noConfusion h)
termination_by structural a => a

def plDecEq : (xs ys : List PyVal) → Decidable (xs = ys)
  | [], [] => isTrue rfl
  | [], _ :: _ => isFalse (fun h => List.noConfusion h)
  | _ :: _, [] => isFalse (fun h => List.noConfusion h)
  | x :: xs, y :: ys =>
    match pvDecEq x y, plDecEq xs ys with
    | isTrue h1, isTrue h2 => isTrue (by rw [h1, h2])
    | isFalse h1, _ => isFalse (fun he => h1 (List.cons.inj he).1)
    | _, isFalse h2 => isFalse (fun he => h2 (List.cons.inj he).2)
termination_by structural xs => xs

def pdDecEq : (xs ys : List (String × PyVal)) → Decidable (xs = ys)
  | [], [] => isTrue rfl
  | [], _ :: _ => isFalse (fun h => List.noConfusion h)
  | _ :: _, [] => isFalse (fun h => List.noConfusion h)
  | (k, v) :: xs, (k', v') :: ys =>
    match decEq k k', pvDecEq v v', pdDecEq xs ys with
    | isTrue h0, isTrue h1, isTrue h2 => isTrue (by rw [h0, h1, h2])
    | isFalse h0, _, _ =>
      isFalse (fun he => h0 (congrArg Prod.fst (List.cons.inj he).1))
    | _, isFalse h1, _ =>
      isFalse (fun he => h1 (congrArg Prod.snd (List.cons.inj he).1))
    | _, _, isFalse h2 => isFalse (fun he => h2 (List.cons.inj he).2)
termination_by structural xs => xs

end

instance : DecidableEq PyVal := pvDecEq

instance {ε α : Type} [DecidableEq ε] [DecidableEq α] : DecidableEq (Except ε α) :=
  fun a b =>
    match a, b with
    | .ok x, .ok y =>
      match decEq x y with
      | isTrue h => isTrue (by rw [h])
      | isFalse h => isFalse (fun he => h (Except.ok.inj he))
    | .error x, .error y =>
      match decEq x y with
      | isTrue h => isTrue (by rw [h])
      | isFalse h => isFalse (fun he => h (Except.error.inj he))
    | .ok _, .error _ => isFalse (fun h => Except.noConfusion h)
    | .error _, .ok _ => isFalse (fun h => Except.noConfusion h)

/-- Python truthiness (`bool(v)`). -/
def truthy : PyVal → Bool
  | .none => false
  | .bool b => b
  | .int n => n != 0
  | .float q => q.num != 0
  | .str s => s != ""
  | .list xs => !xs.isEmpty
  | .dict kvs => !kvs.isEmpty
  | .date _ => true

/-- The whitespace set stripped by `str.strip()` (the ASCII fragment:
space, tab, CR, LF). -/
def wsChar (c : Char) : Bool :=
  c.toNat == 32 || c.toNat == 9 || c.toNat == 13 || c.toNat == 10

/-- `str.strip()`: drop whitespace from both ends (models the ASCII fragment). -/
def pyStrip (s : String) : String :=
  ⟨((s.toList.dropWhile wsChar).reverse.dropWhile wsChar).reverse⟩

/-- `str.lower()` (models the ASCII fragment). -/
def pyLower (s : String) : String :=
  ⟨s.toList.map Char.toLower⟩

/-- Characters kept by the handle-cleaning regex `[^a-z0-9_@]` (the kept
set), via code points: `a`-`z` is 97-122, `0`-`9` is 48-57, `_` is 95 and
`@` is 64. -/
def handleChar (c : Char) : Bool :=
  (97 ≤ c.toNat && c.toNat ≤ 122) || (48 ≤ c.toNat && c.toNat ≤ 57) ||
    c.toNat == 95 || c.toNat == 64

/-- The email shape regex of `CleaningUtils.clean_email`,
`^[^@]+@[^@]+\.[^@]+$`: one `@` splitting a non-empty local part from a
domain that contains an interior dot. -/
def emailShape (cs : List Char) : Bool :=
  let p := cs.span (fun c => c != ('@'))
  match p.2 with
  | [] => false
  | _ :: domain =>
    !p.1.isEmpty && domain.all (fun c => c != ('@')) &&
      ((domain.drop 1).dropLast.contains ('.'))

/-- Scheme characters after the first letter, per `urllib.parse`. -/
def schemeChar (c : Char) : Bool :=
  c.isAlpha || c.isDigit || c == ('+') || c == ('-') || c == ('.')

/-- Split a leading `scheme:` prefix as `urllib.parse.urlparse` does. -/
def splitScheme (cs : List Char) : Option (List Char × List Char) :=
  let p := cs.span (fun c => c != (':'))
  match p.2 with
  | _ :: rest =>
    match p.1 with
    | [] => Option.none
    | c :: cs' => if c.isAlpha && cs'.all schemeChar then some (p.1, rest) else Option.none
  | [] => Option.none

/-- The netloc component: present only after `//`, up to `/`, `?` or `#`. -/
def netlocOf (rest : List Char) : List Char :=
  match rest with
  | ('/') :: ('/') :: r => r.takeWhile (fun c => c != ('/') && c != ('?') && c != ('#'))
  | _ => []

/-- `urllib.parse.urlparse`, restricted to the `(scheme, netloc)` pair the
source consults. -/
def pyUrlparse (s : String) : String × String :=
  let cs := s.toList
  match splitScheme cs with
  | some (pre, rest) => (⟨pre.map Char.toLower⟩, ⟨netlocOf rest⟩)
  | Option.none => ("", ⟨netlocOf cs⟩)

/-- One decimal digit. -/
def digit? (c : Char) : Option Nat :=
  if c.isDigit then some (c.toNat - ('0').toNat) else Option.none

def parse2 : List Char → Option (Nat × List Char)
  | c1 :: c2 :: rest => do
    let d1 ← digit? c1
    let d2 ← digit? c2
    pure (d1 * 10 + d2, rest)
  | _ => Option.none

def parse4 : List Char → Option (Nat × List Char)
  | c1 :: c2 :: c3 :: c4 :: rest => do
    let d1 ← digit? c1
    let d2 ← digit? c2
    let d3 ← digit? c3
    let d4 ← digit? c4
    pure (((d1 * 10 + d2) * 10 + d3) * 10 + d4, rest)
  | _ => Option.none

def expectChar (c : Char) : List Char → Option (List Char)
  | c' :: rest => if c' = c then some rest else Option.none
  | [] => Option.none

def isLeap (y : Nat) : Bool :=
  (y % 4 == 0 && y % 100 != 0) || y % 400 == 0

def daysInMonth (y mo : Nat) : Nat :=
  if mo = 2 then (if isLeap y then 29 else 28)
  else if [4, 6, 9, 11].contains mo then 30 else 31

/-- Optional `±HH:MM` UTC offset at the end of an ISO string. -/
def parseOffset : List Char → Option (Option Int)
  | [] => some Option.none
  | sign :: rest =>
    if sign = ('+') || sign = ('-') then do
      let (hh, rest) ← parse2 rest
      let rest ← expectChar (':') rest
      let (mm, rest) ← parse2 rest
      if rest.isEmpty && hh < 24 && mm < 60 then
        let total : Int := (hh : Int) * 60 + (mm : Int)
        pure (some (if sign = ('-') then -total else total))
      else Option.none
    else Option.none

/-- Optional `:SS` seconds component. -/
def parseSeconds (cs : List Char) : Option (Nat × List Char) :=
  match cs with
  | (':') :: rest => do
    let (ss, rest) ← parse2 rest
    if ss < 60 then pure (ss, rest) else Option.none
  | _ => some (0, cs)

/-- `datetime.datetime.fromisoformat`, modelled on the common subset
`YYYY-MM-DD[{T| }HH:MM[:SS][±HH:MM]]` with calendar range validation. -/
def pyFromIso (s : String) : Option PyDateTime := do
  let cs := s.toList
  let (y, cs) ← parse4 cs
  let cs ← expectChar ('-') cs
  let (mo, cs) ← parse2 cs
  let cs ← expectChar ('-') cs
  let (d, cs) ← parse2 cs
  if 1 ≤ mo && mo ≤ 12 && 1 ≤ d && d ≤ daysInMonth y mo then
    match cs with
    | [] => pure ⟨y, mo, d, 0, 0, 0, Option.none⟩
    | sep :: rest =>
      if sep = ('T') || sep = (' ') then do
        let (h, rest) ← parse2 rest
        let rest ← expectChar (':') rest
        let (mi, rest) ← parse2 rest
        let (ss, rest) ← parseSeconds rest
        let tz ← parseOffset rest
        if h < 24 && mi < 60 then pure ⟨y, mo, d, h, mi, ss, tz⟩ else Option.none
      else Option.none
  else Option.none

def pad2 (n : Nat) : String :=
  if n < 10 then ("0") ++ toString n else toString n

def pad4 (n : Nat) : String :=
  if n < 10 then ("000") ++ toString n
  else if n < 100 then ("00") ++ toString n
  else if n < 1000 then ("0") ++ toString n
  else toString n

/-- Render a UTC offset as `±HH:MM`. -/
def offsetRepr (off : Int) : String :=
  let sign := if off < 0 then ("-") else ("+")
  let a := off.natAbs
  sign ++ pad2 (a / 60) ++ (":") ++ pad2 (a % 60)

/-- `datetime.isoformat()` for the embedded datetimes (microseconds are 0). -/
def isoformat (d : PyDateTime) : String :=
  pad4 d.year ++ ("-") ++ pad2 d.month ++ ("-") ++ pad2 d.day ++ ("T") ++
    pad2 d.hour ++ (":") ++ pad2 d.minute ++ (":") ++ pad2 d.second ++
    (match d.tzOffsetMinutes with
     | some off => offsetRepr off
     | Option.none => "")

def natOfDigits (ds : List Char) : Option Nat :=
  if !ds.isEmpty && ds.all Char.isDigit then
    some (ds.foldl (fun a c => a * 10 + (c.toNat - ('0').toNat)) 0)
  else Option.none

/-- `int(str)`: optional sign and decimal digits, surrounding whitespace
allowed (models the common fragment; underscores and other bases omitted). -/
def pyParseInt (s : String) : Option Int :=
  match (pyStrip s).toList with
  | ('+') :: ds => (natOfDigits ds).map Int.ofNat
  | ('-') :: ds => (natOfDigits ds).map (fun n => -(n : Int))
  | ds => (natOfDigits ds).map Int.ofNat

/-- Digits with an optional fractional part, as an exact fraction. -/
def floatOfParts (ip fp : List Char) : Option PyFloat :=
  if ip.isEmpty && fp.isEmpty then Option.none
  else
    match (if ip.isEmpty then some 0 else natOfDigits ip),
          (if fp.isEmpty then some 0 else natOfDigits fp) with
    | some ipn, some fpn =>
      some ⟨(ipn * 10 ^ fp.length + fpn : Nat), 10 ^ fp.length⟩
    | _, _ => Option.none

/-- `float(str)` on the decimal fragment `[±]digits[.digits]` (exponents,
inf and nan omitted; no claim exercises them). -/
def pyParseFloat (s : String) : Option PyFloat :=
  let body : List Char → Option PyFloat := fun cs =>
    let p := cs.span (fun c => c != ('.'))
    match p.2 with
    | [] => if !p.1.isEmpty && p.1.all Char.isDigit then floatOfParts p.1 [] else Option.none
    | _ :: fp =>
      if (p.1.isEmpty || p.1.all Char.isDigit) && (fp.isEmpty || fp.all Char.isDigit) then
        floatOfParts p.1 fp
      else Option.none
  match (pyStrip s).toList with
  | ('+') :: cs => body cs
  | ('-') :: cs => (body cs).map (fun f => ⟨-f.num, f.den⟩)
  | cs => body cs

/-- Truncation toward zero, the behaviour of `int(float)`
(`Int.tdiv` is T-division). -/
def floatTrunc (f : PyFloat) : Int :=
  Int.tdiv f.num (f.den : Int)

/-- `int(v)`; `Option.none` means the call raises (the callers catch it). -/
def pyInt : PyVal → Option Int
  | .int n => some n
  | .bool b => some (if b then 1 else 0)
  | .float q => some (floatTrunc q)
  | .str s => pyParseInt s
  | _ => Option.none

/-- `float(v)`; `Option.none` means the call raises (the callers catch it). -/
def pyFloat : PyVal → Option PyFloat
  | .int n => some (PyFloat.ofInt n)
  | .bool b => some (PyFloat.ofInt (if b then 1 else 0))
  | .float q => some q
  | .str s => pyParseFloat s
  | _ => Option.none

/-- `value.startswith("@")`: the first character is `@`. -/
def startsWithAtSign (s : String) : Bool :=
  match s.toList with
  | [] => false
  | c :: _ => c == ('@')

/-- `value.replace("Z", "+00:00")`: the pattern is the single character
`Z`, so this is a per-character substitution. -/
def replaceZ : List Char → List Char
  | [] => []
  | c :: cs =>
    if c = ('Z') then ('+') :: ('0') :: ('0') :: (':') :: ('0') :: ('0') :: replaceZ cs
    else c :: replaceZ cs

/-- `"@" in v`: substring test on strings, membership on containers,
`TypeError` otherwise. -/
def containsAt : PyVal → Except PyErr Bool
  | .str s => .ok (s.toList.contains ('@'))
  | .list xs => .ok (xs.contains (.str ("@")))
  | .dict kvs => .ok (kvs.any (fun p => p.1 == ("@")))
  | _ => .error .typeError

namespace CleaningUtils

/-- `CleaningUtils.clean_email`. -/
def clean_email (v : PyVal) : Except PyErr PyVal :=
  if !truthy v then .ok .none
  else
    match containsAt v with
    | .error e => .error e
    | .ok false => .ok .none
    | .ok true =>
      match v with
      | .str s =>
        let s := pyLower (pyStrip s)
        if emailShape s.toList then .ok (.str s) else .ok .none
      | _ => .error .attributeError

/-- `CleaningUtils.clean_handle`. -/
def clean_handle (v : PyVal) : Except PyErr PyVal :=
  if !truthy v then .ok .none
  else
    match v with
    | .str s =>
      let s1 := pyLower (pyStrip s)
      let s2 : String := ⟨s1.toList.filter handleChar⟩
      .ok (.str (if startsWithAtSign s2 then s2 else ("@") ++ s2))
    | _ => .error .attributeError

/-- `CleaningUtils.clean_date`.  The `try` block swallows every failure:
for a non-string truthy value, `.replace` (or `fromisoformat`) raises
inside the `try` and the function returns `None`. -/
def clean_date (v : PyVal) : PyVal :=
  if !truthy v then .none
  else
    match v with
    | .str s =>
      match pyFromIso ⟨replaceZ s.toList⟩ with
      | some d => .date d
      | Option.none => .none
    | _ => .none

/-- `CleaningUtils.clean_int`. -/
def clean_int (v : PyVal) : PyVal :=
  match v with
  | .none => .int 0
  | _ =>
    match pyInt v with
    | some n => .int n
    | Option.none => .int 0

/-- `CleaningUtils.clean_float`. -/
def clean_float (v : PyVal) : PyVal :=
  match v with
  | .none => .float PyFloat.zero
  | _ =>
    match pyFloat v with
    | some q => .float q
    | Option.none => .float PyFloat.zero

/-- `CleaningUtils.clean_url`. -/
def clean_url (v : PyVal) : PyVal :=
  match v with
  | .str s =>
    if !truthy (.str s) then .none
    else
      let s := pyStrip s
      let p := pyUrlparse s
      if p.1 != "" && p.2 != "" then .str s else .none
  | _ => .none

mutual

/-- `CleaningUtils.serialise_dates`. -/
def serialise_dates : PyVal → PyVal
  | .dict kvs => .dict (serialiseKVs kvs)
  | .list xs => .list (serialiseList xs)
  | .date d => .str (isoformat d)
  | v => v
termination_by structural v => v

def serialiseList : List PyVal → List PyVal
  | [] => []
  | v :: vs => serialise_dates v :: serialiseList vs
termination_by structural xs => xs

def serialiseKVs : List (String × PyVal) → List (String × PyVal)
  | [] => []
  | (k, v) :: kvs => (k, serialise_dates v) :: serialiseKVs kvs
termination_by structural xs => xs

end

end CleaningUtils

/-! ## The pydantic entity models (src/models) -/

/-- `AdvocacyTask` (src/models/advocacy_task.py): a validated task.
`post_url` keeps the accepted URL text. -/
structure AdvocacyTask where
  task_id : String
  platform : String
  post_url : String
  likes : Int
  comments : Int
  shares : Int
  reach : Int
  deriving DecidableEq, Repr

/-- `AdvocacyProgram` (src/models/advocacy_program.py). -/
structure AdvocacyProgram where
  program_id : String
  brand : String
  tasks_completed : List AdvocacyTask
  total_sales_attributed : PyFloat
  deriving DecidableEq, Repr

/-- `Advocate` (src/models/advocate.py).  `extra` carries unknown
top-level fields (`model_config extra="allow"`). -/
structure Advocate where
  name : String
  user_id : String
  email : Option String
  joined_at : Option PyDateTime
  instagram_handle : Option String
  tiktok_handle : Option String
  advocacy_programs : List AdvocacyProgram
  extra : List (String × PyVal)
  deriving DecidableEq

/-- Key lookup in a Python dict (keys are unique in decoded JSON). -/
def lookup? (kvs : List (String × PyVal)) (k : String) : Option PyVal :=
  (kvs.find? (fun p => p.1 == k)).map Prod.snd

/-- Errors of one validation piece (empty when it succeeded). -/
def errsOf {α : Type} : Except (List String) α → List String
  | .ok _ => []
  | .error es => es

/-- pydantic: a required `str` field (v2 does not coerce numbers to str). -/
def vStr (path : String) : Option PyVal → Except (List String) String
  | Option.none => .error [path ++ (": missing")]
  | some (.str s) => .ok s
  | some _ => .error [path ++ (": string_type")]

/-- pydantic: an `int` field with default `0`; lax mode coerces integral
floats and decimal strings, and rejects bools. -/
def vInt (path : String) : Option PyVal → Except (List String) Int
  | Option.none => .ok 0
  | some (.int n) => .ok n
  | some (.float f) =>
    if Int.emod f.num (f.den : Int) == 0 then .ok (Int.tdiv f.num (f.den : Int))
    else .error [path ++ (": int_from_float")]
  | some (.str s) =>
    match pyParseInt s with
    | some n => .ok n
    | Option.none => .error [path ++ (": int_parsing")]
  | some _ => .error [path ++ (": int_type")]

/-- pydantic: a required `float` field; lax mode coerces ints and decimal
strings, and rejects bools and `None`. -/
def vFloat (path : String) : Option PyVal → Except (List String) PyFloat
  | Option.none => .error [path ++ (": missing")]
  | some (.float f) => .ok f
  | some (.int n) => .ok (PyFloat.ofInt n)
  | some (.str s) =>
    match pyParseFloat s with
    | some f => .ok f
    | Option.none => .error [path ++ (": float_parsing")]
  | some _ => .error [path ++ (": float_type")]

/-- pydantic `HttpUrl`: accepted iff the text parses with an http or https
scheme and a nonempty host. -/
def httpUrlOk (s : String) : Bool :=
  let p := pyUrlparse s
  (p.1 == ("http") || p.1 == ("https")) && p.2 != ""

/-- pydantic: the required `post_url : HttpUrl` field. -/
def vHttpUrl (path : String) : Option PyVal → Except (List String) String
  | Option.none => .error [path ++ (": missing")]
  | some (.str s) => if httpUrlOk s then .ok s else .error [path ++ (": url_parsing")]
  | some _ => .error [path ++ (": url_type")]

/-- Characters email-validator accepts in the local part (common fragment). -/
def emailLocalChar (c : Char) : Bool :=
  c.isAlpha || c.isDigit || c == ('.') || c == ('_') || c == ('%') || c == ('+') || c == ('-')

/-- Characters of a domain label. -/
def domainLabelChar (c : Char) : Bool :=
  c.isAlpha || c.isDigit || c == ('-')

/-- Split a list at every occurrence of a separator character. -/
def splitOnChar (sep : Char) : List Char → List (List Char)
  | [] => [[]]
  | c :: cs =>
    let rest := splitOnChar sep cs
    if c = sep then [] :: rest
    else
      match rest with
      | [] => [[c]]
      | g :: gs => (c :: g) :: gs

/-- `EmailStr` acceptance, modelling email-validator on the common
fragment: a nonempty dot-separated local part of allowed characters, an
`@`, and at least two nonempty alphanumeric-or-hyphen domain labels. -/
def emailOk (s : String) : Bool :=
  let cs := s.toList
  let p := cs.span (fun c => c != ('@'))
  match p.2 with
  | [] => false
  | _ :: domain =>
    let locParts := splitOnChar ('.') p.1
    let labels := splitOnChar ('.') domain
    !p.1.isEmpty && domain.all (fun c => c != ('@')) &&
      locParts.all (fun g => !g.isEmpty && g.all emailLocalChar) &&
      labels.length ≥ 2 && labels.all (fun g => !g.isEmpty && g.all domainLabelChar)

/-- pydantic: the `email : Optional[EmailStr] = None` field. -/
def vEmail (path : String) : Option PyVal → Except (List String) (Option String)
  | Option.none => .ok Option.none
  | some .none => .ok Option.none
  | some (.str s) => if emailOk s then .ok (some s) else .error [path ++ (": value_error")]
  | some _ => .error [path ++ (": string_type")]

/-- pydantic: the `joined_at : Optional[datetime] = None` field; accepts
datetime objects and ISO-8601 strings (with `Z`).  Numeric Unix-timestamp
coercion is not modelled: the record cleaner only ever supplies a datetime
or `None` here. -/
def vDateTime (path : String) : Option PyVal → Except (List String) (Option PyDateTime)
  | Option.none => .ok Option.none
  | some .none => .ok Option.none
  | some (.date d) => .ok (some d)
  | some (.str s) =>
    match pyFromIso ⟨replaceZ s.toList⟩ with
    | some d => .ok (some d)
    | Option.none => .error [path ++ (": datetime_parsing")]
  | some _ => .error [path ++ (": datetime_type")]

/-- `Advocate._clean_handle` (src/models/advocate.py), used as a
`mode="before"` validator on both handle fields.  Unlike
`CleaningUtils.clean_handle`, an input that is entirely junk collapses to
`None`.  On a truthy non-string it raises `AttributeError`, which pydantic
does not convert into a `ValidationError`. -/
def advCleanHandle (v : PyVal) : Except PyErr (Option String) :=
  if !truthy v then .ok Option.none
  else
    match v with
    | .str s =>
      let s1 := pyLower (pyStrip s)
      let s2 : String := ⟨s1.toList.filter handleChar⟩
      if s2.toList.isEmpty then .ok Option.none
      else .ok (some (if startsWithAtSign s2 then s2 else ("@") ++ s2))
    | _ => .error .attributeError

def knownTaskKeys : List String :=
  [("task_id"), ("platform"), ("post_url"), ("likes"), ("comments"), ("shares"), ("reach")]

/-- Validate one `AdvocacyTask` (`extra="forbid"`); collects every
violation, not just the first. -/
def validateTask (path : String) (v : PyVal) : Except (List String) AdvocacyTask :=
  match v with
  | .dict kvs =>
    let extraErrs := (kvs.filter (fun p => !(knownTaskKeys.contains p.1))).map
      (fun p => path ++ (".") ++ p.1 ++ (": extra_forbidden"))
    let tid := vStr (path ++ (".task_id")) (lookup? kvs ("task_id"))
    let plat := vStr (path ++ (".platform")) (lookup? kvs ("platform"))
    let url := vHttpUrl (path ++ (".post_url")) (lookup? kvs ("post_url"))
    let likes := vInt (path ++ (".likes")) (lookup? kvs ("likes"))
    let comments := vInt (path ++ (".comments")) (lookup? kvs ("comments"))
    let shares := vInt (path ++ (".shares")) (lookup? kvs ("shares"))
    let reach := vInt (path ++ (".reach")) (lookup? kvs ("reach"))
    match tid, plat, url, likes, comments, shares, reach with
    | .ok a, .ok b, .ok c, .ok d, .ok e, .ok f, .ok g =>
      if extraErrs.isEmpty then .ok ⟨a, b, c, d, e, f, g⟩ else .error extraErrs
    | _, _, _, _, _, _, _ =>
      .error (errsOf tid ++ errsOf plat ++ errsOf url ++ errsOf likes ++
        errsOf comments ++ errsOf shares ++ errsOf reach ++ extraErrs)
  | _ => .error [path ++ (": model_type")]

/-- Validate the `tasks_completed` elements in source order. -/
def validateTaskList (path : String) (i : Nat) : List PyVal → Except (List String) (List AdvocacyTask)
  | [] => .ok []
  | v :: vs =>
    let e := validateTask (path ++ (".") ++ toString i) v
    let rest := validateTaskList path (i + 1) vs
    match e, rest with
    | .ok t, .ok ts => .ok (t :: ts)
    | _, _ => .error (errsOf e ++ errsOf rest)

def knownProgramKeys : List String :=
  [("program_id"), ("brand"), ("tasks_completed"), ("total_sales_attributed")]

/-- Validate one `AdvocacyProgram` (`extra="forbid"`). -/
def validateProgram (path : String) (v : PyVal) : Except (List String) AdvocacyProgram :=
  match v with
  | .dict kvs =>
    let extraErrs := (kvs.filter (fun p => !(knownProgramKeys.contains p.1))).map
      (fun p => path ++ (".") ++ p.1 ++ (": extra_forbidden"))
    let pid := vStr (path ++ (".program_id")) (lookup? kvs ("program_id"))
    let brand := vStr (path ++ (".brand")) (lookup? kvs ("brand"))
    let tsa := vFloat (path ++ (".total_sales_attributed")) (lookup? kvs ("total_sales_attributed"))
    let tasks : Except (List String) (List AdvocacyTask) :=
      match lookup? kvs ("tasks_completed") with
      | Option.none => .ok []
      | some (.list xs) => validateTaskList (path ++ (".tasks_completed")) 0 xs
      | some _ => .error [path ++ (".tasks_completed: list_type")]
    match pid, brand, tsa, tasks with
    | .ok a, .ok b, .ok c, .ok d =>
      if extraErrs.isEmpty then .ok ⟨a, b, d, c⟩ else .error extraErrs
    | _, _, _, _ =>
      .error (errsOf pid ++ errsOf brand ++ errsOf tsa ++ errsOf tasks ++ extraErrs)
  | _ => .error [path ++ (": model_type")]

/-- Validate the `advocacy_programs` elements in source order. -/
def validateProgramList (path : String) (i : Nat) : List PyVal → Except (List String) (List AdvocacyProgram)
  | [] => .ok []
  | v :: vs =>
    let e := validateProgram (path ++ (".") ++ toString i) v
    let rest := validateProgramList path (i + 1) vs
    match e, rest with
    | .ok t, .ok ts => .ok (t :: ts)
    | _, _ => .error (errsOf e ++ errsOf rest)

def knownAdvocateKeys : List String :=
  [("name"), ("user_id"), ("email"), ("joined_at"), ("instagram_handle"),
   ("tiktok_handle"), ("advocacy_programs")]

/-- The before-validated handle fields: pydantic leaves an absent field at
its default `None` and runs `validate_social_handle` on a present one. -/
def handleField (kvs : List (String × PyVal)) (k : String) : Except PyErr (Option String) :=
  match lookup? kvs k with
  | Option.none => .ok Option.none
  | some hv => advCleanHandle hv

/-- `Advocate.model_validate` (src/models/advocate.py).  The outer
`Except PyErr` is an exception raised inside the before-validator (pydantic
propagates non-ValueError exceptions); the inner `Except` is the
`ValidationError`, carrying every violated field path. -/
def validateAdvocate (v : PyVal) : Except PyErr (Except (List String) Advocate) :=
  match v with
  | .dict kvs => do
    let igE ← handleField kvs ("instagram_handle")
    let tkE ← handleField kvs ("tiktok_handle")
    let nm := vStr ("name") (lookup? kvs ("name"))
    let uid := vStr ("user_id") (lookup? kvs ("user_id"))
    let em := vEmail ("email") (lookup? kvs ("email"))
    let ja := vDateTime ("joined_at") (lookup? kvs ("joined_at"))
    let progs : Except (List String) (List AdvocacyProgram) :=
      match lookup? kvs ("advocacy_programs") with
      | Option.none => .ok []
      | some (.list xs) => validateProgramList ("advocacy_programs") 0 xs
      | some _ => .error [("advocacy_programs: list_type")]
    let extra := kvs.filter (fun p => !(knownAdvocateKeys.contains p.1))
    match nm, uid, em, ja, progs with
    | .ok a, .ok b, .ok c, .ok d, .ok e =>
      pure (.ok ⟨a, b, c, d, igE, tkE, e, extra⟩)
    | _, _, _, _, _ =>
      pure (.error (errsOf nm ++ errsOf uid ++ errsOf em ++ errsOf ja ++ errsOf progs))
  | _ => pure (.error [("model_type")])

/-- `model_dump(mode="json")` for a task. -/
def AdvocacyTask.model_dump (t : AdvocacyTask) : PyVal :=
  .dict [(("task_id"), .str t.task_id), (("platform"), .str t.platform),
         (("post_url"), .str t.post_url), (("likes"), .int t.likes),
         (("comments"), .int t.comments), (("shares"), .int t.shares),
         (("reach"), .int t.reach)]

/-- `model_dump(mode="json")` for a program. -/
def AdvocacyProgram.model_dump (p : AdvocacyProgram) : PyVal :=
  .dict [(("program_id"), .str p.program_id), (("brand"), .str p.brand),
         (("tasks_completed"), .list (p.tasks_completed.map AdvocacyTask.model_dump)),
         (("total_sales_attributed"), .float p.total_sales_attributed)]

/-- `advocate.model_dump(mode="json")`: declared fields in order, datetimes
as ISO strings, then the extra fields. -/
def Advocate.model_dump (a : Advocate) : PyVal :=
  .dict ([(("name"), .str a.name), (("user_id"), .str a.user_id),
          (("email"), match a.email with | some s => .str s | Option.none => .none),
          (("joined_at"), match a.joined_at with
            | some d => .str (isoformat d)
            | Option.none => .none),
          (("instagram_handle"), match a.instagram_handle with
            | some s => .str s
            | Option.none => .none),
          (("tiktok_handle"), match a.tiktok_handle with
            | some s => .str s
            | Option.none => .none),
          (("advocacy_programs"), .list (a.advocacy_programs.map AdvocacyProgram.model_dump))]
    ++ a.extra)

/-! ## The ingestion pipeline (src/pipeline) -/

/-- `IngestStats` (src/pipeline/ingest_stats.py): run-scoped counters. -/
structure IngestStats where
  files_seen : Nat
  files_parsed : Nat
  files_skipped : Nat
  records_valid : Nat
  records_invalid : Nat
  deriving DecidableEq, Repr

/-- The dataclass defaults: all counters zero. -/
def IngestStats.init : IngestStats := ⟨0, 0, 0, 0, 0⟩

/-- `BATCH_SIZE` (src/pipeline/advocate_ingester.py line 22). -/
def BATCH_SIZE : Nat := 500

/-- What reading and decoding a file yields.  `read_text`/`json.load`/
`json5.load` are library calls, so a file is modelled by the outcome the
ingester branches on: not valid UTF-8 (`UnicodeDecodeError`), unreadable
(`OSError`), strict JSON parse success, strict failure but json5 success,
or text both parsers reject. -/
inductive LoadOutcome where
  | notText
  | readError
  | strictOk (v : PyVal)
  | json5Ok (v : PyVal)
  | unparsable (raw : String)
  deriving DecidableEq

/-- A directory entry: file name plus its decode outcome. -/
structure IngestFile where
  name : String
  load : LoadOutcome
  deriving DecidableEq

/-- A quarantine directory: artifact file name to last-written content
(`write_text` overwrites an existing file of the same name). -/
abbrev ArtifactDir : Type := List (String × PyVal)

/-- Write an artifact, replacing any file of the same name. -/
def writeArtifact (dir : ArtifactDir) (name : String) (content : PyVal) : ArtifactDir :=
  (List.filter (fun p => p.1 != name) dir) ++ [(name, content)]

/-- `Path.stem`: the file name without its last suffix. -/
def pathStem (s : String) : String :=
  let p := s.toList.reverse.span (fun c => c != ('.'))
  match p.2 with
  | [] => s
  | _ :: pre => if pre.isEmpty then s else ⟨pre.reverse⟩

/-- `name.startswith("._")`: macOS resource-fork junk prefix. -/
def isJunkName (s : String) : Bool :=
  match s.toList with
  | ('.') :: ('_') :: _ => true
  | _ => false

/-- `*.json` glob match. -/
def matchesJsonGlob (s : String) : Bool :=
  s.toList.reverse.take 5 == [('n'), ('o'), ('s'), ('j'), ('.')]

/-- `raw.get(k)` — raises `AttributeError` when the record is not a dict. -/
def pyGet (v : PyVal) (k : String) : Except PyErr PyVal :=
  match v with
  | .dict kvs => .ok ((lookup? kvs k).getD .none)
  | _ => .error .attributeError

/-- `raw.get(k, default)`. -/
def pyGetD (v : PyVal) (k : String) (d : PyVal) : Except PyErr PyVal :=
  match v with
  | .dict kvs => .ok ((lookup? kvs k).getD d)
  | _ => .error .attributeError

/-- `str(v)`.  Exact on the scalar values the cleaner applies it to
(`brand`); container rendering is abbreviated, the pipeline never
stringifies containers in any claim. -/
def pyStr (v : PyVal) : String :=
  match v with
  | .str s => s
  | .int n => toString n
  | .bool b => if b then ("True") else ("False")
  | .none => ("None")
  | .float f => toString f.num ++ ("/") ++ toString f.den
  | .date d => isoformat d
  | .list _ => ("[...]")
  | .dict _ => ("\x7b...\x7d")

/-- `for x in v`: lists yield elements, dicts yield their keys, strings
yield one-character strings; anything else raises `TypeError`.  Applies
`g` to each yielded value, propagating the first exception, exactly like
the source's loop / list comprehension. -/
def exceptMapList (g : PyVal → Except PyErr PyVal) : List PyVal → Except PyErr (List PyVal)
  | [] => .ok []
  | x :: xs => do
    let y ← g x
    let ys ← exceptMapList g xs
    pure (y :: ys)

def pyIterMap (g : PyVal → Except PyErr PyVal) : PyVal → Except PyErr (List PyVal)
  | .list xs => exceptMapList g xs
  | .dict kvs => exceptMapList g (kvs.map (fun p => PyVal.str p.1))
  | .str s => exceptMapList g (s.toList.map (fun c => PyVal.str ⟨[c]⟩))
  | _ => .error .typeError

namespace AdvocateIngester

/-- `AdvocateIngester._clean_task`. -/
def _clean_task (task : PyVal) : Except PyErr PyVal := do
  let tid ← pyGet task ("task_id")
  let plat ← pyGet task ("platform")
  let url ← pyGet task ("post_url")
  let likes ← pyGet task ("likes")
  let comments ← pyGet task ("comments")
  let shares ← pyGet task ("shares")
  let reach ← pyGet task ("reach")
  pure (.dict [(("task_id"), tid), (("platform"), plat),
               (("post_url"), CleaningUtils.clean_url url),
               (("likes"), CleaningUtils.clean_int likes),
               (("comments"), CleaningUtils.clean_int comments),
               (("shares"), CleaningUtils.clean_int shares),
               (("reach"), CleaningUtils.clean_int reach)])

/-- `AdvocateIngester._clean_program`. -/
def _clean_program (program : PyVal) : Except PyErr PyVal := do
  let pid ← pyGet program ("program_id")
  let brand ← pyGet program ("brand")
  let tsa ← pyGet program ("total_sales_attributed")
  let tasksRaw ← pyGetD program ("tasks_completed") (.list [])
  let tasks ← pyIterMap _clean_task tasksRaw
  pure (.dict [(("program_id"), if truthy pid then pid else .none),
               (("brand"), match brand with
                 | .none => .none
                 | b => .str (pyStr b)),
               (("total_sales_attributed"), CleaningUtils.clean_float tsa),
               (("tasks_completed"), .list tasks)])

/-- `AdvocateIngester._clean_advocate`. -/
def _clean_advocate (raw : PyVal) : Except PyErr PyVal := do
  let uid ← pyGet raw ("user_id")
  let nm ← pyGet raw ("name")
  let em ← pyGet raw ("email")
  let emc ← CleaningUtils.clean_email em
  let ig ← pyGet raw ("instagram_handle")
  let igc ← CleaningUtils.clean_handle ig
  let tk ← pyGet raw ("tiktok_handle")
  let tkc ← CleaningUtils.clean_handle tk
  let ja ← pyGet raw ("joined_at")
  let progsRaw ← pyGetD raw ("advocacy_programs") (.list [])
  let progs ← pyIterMap _clean_program progsRaw
  pure (.dict [(("user_id"), uid), (("name"), nm), (("email"), emc),
               (("instagram_handle"), igc), (("tiktok_handle"), tkc),
               (("joined_at"), CleaningUtils.clean_date ja),
               (("advocacy_programs"), .list progs)])

/-- The per-run mutable state shared between `_load_json`, `_process_file`
and `run`: the stats counters and both quarantine directories. -/
structure ProcState where
  stats : IngestStats
  invalidJsonDir : ArtifactDir
  failedValidationDir : ArtifactDir
  deriving DecidableEq

/-- `AdvocateIngester._write_invalid_json_record`: writes the raw text,
JSON-encoded, to `<stem>_record_invalid_json.txt`. -/
def _write_invalid_json_record (d : ArtifactDir) (sourceName : String) (raw : String) : ArtifactDir :=
  writeArtifact d (pathStem sourceName ++ ("_record_invalid_json.txt")) (.str raw)

/-- `AdvocateIngester._write_failed_validation_record`: writes the source
path, the structured violations and the date-serialised record to
`<stem>_record_invalid.json`. -/
def _write_failed_validation_record (d : ArtifactDir) (ingestDir sourceName : String)
    (cleaned : PyVal) (errs : List String) : ArtifactDir :=
  writeArtifact d (pathStem sourceName ++ ("_record_invalid.json"))
    (.dict [(("source_file"), .str (ingestDir ++ ("/") ++ sourceName)),
            (("validation_errors"), .list (errs.map PyVal.str)),
            (("record"), cleaned)])

/-- `AdvocateIngester._load_json`: returns the decoded payload, or `none`
after routing unparsable text to the invalid-JSON quarantine. -/
def _load_json (d : ArtifactDir) (f : IngestFile) : Option PyVal × ArtifactDir :=
  match f.load with
  | .notText => (Option.none, d)
  | .readError => (Option.none, d)
  | .strictOk v => (some v, d)
  | .json5Ok v => (some v, d)
  | .unparsable raw => (Option.none, _write_invalid_json_record d f.name raw)

/-- The body of `_process_file`'s per-record loop: clean, validate, and on
failure quarantine; exceptions raised by cleaning (or inside the handle
validator) propagate out of the worker. -/
def processRecord (ingestDir : String) (f : IngestFile) (st : ProcState)
    (advocates : List Advocate) (record : PyVal) :
    Except PyErr (ProcState × List Advocate) := do
  let cleaned ← _clean_advocate record
  if !truthy cleaned then
    pure ({ st with stats := { st.stats with records_invalid := st.stats.records_invalid + 1 } },
      advocates)
  else do
    let vres ← validateAdvocate cleaned
    match vres with
    | .error errs =>
      let serialised := CleaningUtils.serialise_dates cleaned
      pure ({ st with
          stats := { st.stats with records_invalid := st.stats.records_invalid + 1 },
          failedValidationDir :=
            _write_failed_validation_record st.failedValidationDir ingestDir f.name serialised errs },
        advocates)
    | .ok model =>
      pure ({ st with stats := { st.stats with records_valid := st.stats.records_valid + 1 } },
        advocates ++ [model])

/-- Loop of `processRecord` over the flattened record list. -/
def processRecords (ingestDir : String) (f : IngestFile) :
    ProcState → List Advocate → List PyVal → Except PyErr (ProcState × List Advocate)
  | st, advocates, [] => .ok (st, advocates)
  | st, advocates, r :: rs => do
    let (st, advocates) ← processRecord ingestDir f st advocates r
    processRecords ingestDir f st advocates rs

/-- `AdvocateIngester._process_file`: the worker-task body.  Note that it
updates the shared stats counters itself. -/
def _process_file (ingestDir : String) (st : ProcState) (f : IngestFile) :
    Except PyErr (ProcState × List Advocate) :=
  let (payload, invDir) := _load_json st.invalidJsonDir f
  match payload with
  | Option.none =>
    .ok ({ st with
        stats := { st.stats with files_skipped := st.stats.files_skipped + 1 },
        invalidJsonDir := invDir }, [])
  | some payload =>
    let st := { st with
      stats := { st.stats with files_parsed := st.stats.files_parsed + 1 },
      invalidJsonDir := invDir }
    let records := match payload with
      | .list xs => xs
      | v => [v]
    processRecords ingestDir f st [] records

/-- One step of the scanner's walk over the glob matches. -/
def scanStep (acc : IngestStats × List IngestFile) (f : IngestFile) :
    IngestStats × List IngestFile :=
  if matchesJsonGlob f.name then
    let st := { acc.1 with files_seen := acc.1.files_seen + 1 }
    if isJunkName f.name then
      ({ st with files_skipped := st.files_skipped + 1 }, acc.2)
    else (st, acc.2 ++ [f])
  else acc

/-- `AdvocateIngester._iter_candidate_files`, fused with the
`list(...)` call in `run`: walks the `*.json` matches of the ingest
directory (`Option.none` models a missing/non-directory path), counting
every match in `files_seen` and dropping `._` junk into `files_skipped`. -/
def _iter_candidate_files (dir : Option (List IngestFile)) (stats : IngestStats) :
    IngestStats × List IngestFile :=
  match dir with
  | Option.none => (stats, [])
  | some entries => entries.foldl scanStep (stats, [])

/-- The `self.datastore` attribute read.  `__init__` assigns the attribute
only when `write_to_datastore` is true (a `DatastoreManager`, which is
truthy); otherwise the lookup raises `AttributeError`. -/
def getDatastore (write_to_datastore : Bool) : Except PyErr Bool :=
  if write_to_datastore then .ok true else .error .attributeError

/-- The aggregation state of `run`'s completion loop: the batch buffer,
the flushes sent to the sink, and the dry-run `self.advocates` list. -/
structure AggState where
  batch : List PyVal
  flushes : List (List PyVal)
  advocates : List Advocate

/-- One iteration of `run`'s inner `for advocate in advocates` loop. -/
def aggregateAdvocate (write_to_datastore : Bool) (st : AggState) (a : Advocate) :
    Except PyErr AggState := do
  let ds ← getDatastore write_to_datastore
  if ds then
    let batch := st.batch ++ [a.model_dump]
    if BATCH_SIZE ≤ batch.length then
      pure { st with batch := [], flushes := st.flushes ++ [batch] }
    else
      pure { st with batch := batch }
  else
    pure { st with advocates := st.advocates ++ [a] }

/-- Fold of `aggregateAdvocate` over one worker's result list. -/
def aggregateAdvocates (write_to_datastore : Bool) :
    AggState → List Advocate → Except PyErr AggState
  | st, [] => .ok st
  | st, a :: rest => do
    let st ← aggregateAdvocate write_to_datastore st a
    aggregateAdvocates write_to_datastore st rest

/-- The worker dispatch plus completion loop: process each file and merge
its advocates into the aggregation state.  The thread pool's completion
order is some permutation of the worklist; the embedding linearizes it to
the given order (the claims it settles are order-insensitive totals). -/
def processLoop (ingestDir : String) (write_to_datastore : Bool) :
    ProcState → AggState → List IngestFile → Except PyErr (ProcState × AggState)
  | st, agg, [] => .ok (st, agg)
  | st, agg, f :: fs => do
    let (st, advocates) ← _process_file ingestDir st f
    let agg ← aggregateAdvocates write_to_datastore agg advocates
    processLoop ingestDir write_to_datastore st agg fs

/-- The outcome of a completed `run()`. -/
structure RunResult where
  stats : IngestStats
  advocates : List Advocate
  flushes : List (List PyVal)
  invalidJsonDir : ArtifactDir
  failedValidationDir : ArtifactDir
  deriving DecidableEq

/-- `AdvocateIngester.run`: reset state, enumerate candidates, process
every file, aggregate, and final-flush.  The ingest directory is
`ingestDir` with entries `dir` (`Option.none` when missing).  A `PyErr`
escaping `run` models the run aborting with an uncaught exception. -/
def run (ingestDir : String) (dir : Option (List IngestFile)) (write_to_datastore : Bool) :
    Except PyErr RunResult :=
  let (stats, advocate_files) := _iter_candidate_files dir IngestStats.init
  if advocate_files.isEmpty then
    .ok ⟨stats, [], [], [], []⟩
  else do
    let (st, agg) ← processLoop ingestDir write_to_datastore
      ⟨stats, [], []⟩ ⟨[], [], []⟩ advocate_files
    -- Final flush: `if batch and self.datastore:` — `and` short-circuits,
    -- so the attribute is read only when the batch is non-empty.
    if !agg.batch.isEmpty then do
      let ds ← getDatastore write_to_datastore
      if ds then
        pure ⟨st.stats, agg.advocates, agg.flushes ++ [agg.batch],
          st.invalidJsonDir, st.failedValidationDir⟩
      else
        pure ⟨st.stats, agg.advocates, agg.flushes, st.invalidJsonDir, st.failedValidationDir⟩
    else
      pure ⟨st.stats, agg.advocates, agg.flushes, st.invalidJsonDir, st.failedValidationDir⟩

end AdvocateIngester

/-! ## Claim-support definitions -/

/-- Replace the `joined_at` value of a cleaned record by `None`. -/
def setJoinedAtNone : PyVal → PyVal
  | .dict kvs => .dict (kvs.map (fun p => if p.1 == ("joined_at") then (p.1, PyVal.none) else p))
  | v => v

/-- Values on which `clean_email`/`clean_handle` cannot raise: strings and
falsy values. -/
def strOrFalsy : PyVal → Bool
  | .str _ => true
  | v => !truthy v

def dictLike : PyVal → Bool
  | .dict _ => true
  | _ => false

/-- A program element the cleaner can process without raising: a dict
whose `tasks_completed`, when present, is a list of dicts. -/
def programSafe : PyVal → Bool
  | .dict kvs =>
    (match lookup? kvs ("tasks_completed") with
     | Option.none => true
     | some (.list xs) => xs.all dictLike
     | some _ => false)
  | _ => false

/-- A record the cleaner can process without raising. -/
def advRecordSafe : PyVal → Bool
  | .dict kvs =>
    strOrFalsy ((lookup? kvs ("email")).getD .none) &&
    strOrFalsy ((lookup? kvs ("instagram_handle")).getD .none) &&
    strOrFalsy ((lookup? kvs ("tiktok_handle")).getD .none) &&
    (match lookup? kvs ("advocacy_programs") with
     | Option.none => true
     | some (.list xs) => xs.all programSafe
     | some _ => false)
  | _ => false

/-- How `_process_file` treats one flattened record: `some true` counts in
`records_valid`, `some false` in `records_invalid`, `none` raises out of
the worker. -/
def recordOutcome (r : PyVal) : Option Bool :=
  match AdvocateIngester._clean_advocate r with
  | .error _ => Option.none
  | .ok c =>
    if !truthy c then some false
    else
      match validateAdvocate c with
      | .error _ => Option.none
      | .ok (.ok _) => some true
      | .ok (.error _) => some false

/-- Number of records of a flattened payload that validate. -/
def countValidRecords (rs : List PyVal) : Nat :=
  rs.countP (fun r => recordOutcome r == some true)

/-- Number of records of a flattened payload that fail (cleanly). -/
def countInvalidRecords (rs : List PyVal) : Nat :=
  rs.countP (fun r => recordOutcome r == some false)

/-- The flattened record list `_process_file` iterates over. -/
def flattenPayload : PyVal → List PyVal
  | .list xs => xs
  | v => [v]

/-- The quarantine artifact name `_write_failed_validation_record` uses
for a given source file. -/
def failedArtifactName (f : IngestFile) : String :=
  pathStem f.name ++ ("_record_invalid.json")


/-! ## Claim theorems -/

/-- C1: the spec says a run with no persistence sink configured
(`write_to_datastore = false`) completes normally and accumulates
validated Advocates in `self.advocates`.  In the code, `__init__` assigns
`self.datastore` only when `write_to_datastore` is true, so the
aggregation loop's `if self.datastore:` raises `AttributeError` as soon as
any advocate validates: the dry-run branch is unreachable.  At the same
input with a sink configured the run completes with
`records_valid = 1`. -/
theorem C1_dry_run_raises_attribute_error :
    AdvocateIngester.run ("data")
        (some [⟨("a.json"), .strictOk (.dict [(("user_id"), .str ("u1")), (("name"), .str ("Alice"))])⟩])
        false
      = .error .attributeError ∧
    (AdvocateIngester.run ("data")
        (some [⟨("a.json"), .strictOk (.dict [(("user_id"), .str ("u1")), (("name"), .str ("Alice"))])⟩])
        true).map (fun r => (r.stats, r.advocates.length)) = .ok (⟨1, 1, 0, 1, 0⟩, 0) := by
  exact ⟨by decide, by decide⟩

/-- C4 counterexample: schema validation accepts an Advocate whose
`user_id` and `name` are empty strings and whose task has `likes = -5`:
neither non-emptiness nor non-negativity is enforced by the models. -/
theorem C4_counterexample_empty_and_negative_validate :
    validateAdvocate (.dict [(("user_id"), .str ("")), (("name"), .str ("")),
        (("advocacy_programs"), .list [.dict [(("program_id"), .str ("p")), (("brand"), .str ("b")),
          (("total_sales_attributed"), .float ⟨1, 1⟩),
          (("tasks_completed"), .list [.dict [(("task_id"), .str ("t")), (("platform"), .str ("ig")),
            (("post_url"), .str ("https://x.com/p")), (("likes"), .int (-5))]])]])]) =
      .ok (.ok ⟨"", "", Option.none, Option.none, Option.none, Option.none,
        [⟨("p"), ("b"), [⟨("t"), ("ig"), ("https://x.com/p"), -5, 0, 0, 0⟩], ⟨1, 1⟩⟩], []⟩) := by
  decide

/-- C5 counterexample: `CleaningUtils.clean_handle` maps the all-invalid
input `"!!!!"` to the bare `"@"`, not to absent, and the model-level
before-validator keeps that `"@"`; only `Advocate._clean_handle` applied
to the raw input yields absent. -/
theorem C5_counterexample_all_invalid_cleans_to_at :
    CleaningUtils.clean_handle (.str ("!!!!")) = .ok (.str ("@")) ∧
    advCleanHandle (.str ("@")) = .ok (some ("@")) ∧
    advCleanHandle (.str ("!!!!")) = .ok Option.none := by
  exact ⟨by decide, by decide, by decide⟩

/-- C6 counterexample: cleaning is not idempotent.  For a record whose
`joined_at` is a valid ISO timestamp, the first cleaning produces a
datetime object; re-cleaning the cleaned record maps that datetime to
absent (`datetime.replace("Z", "+00:00")` raises `TypeError` inside
`clean_date`'s `try`), so the twice-cleaned record differs from the
once-cleaned one. -/
theorem C6_counterexample_not_idempotent :
    AdvocateIngester._clean_advocate
        (.dict [(("user_id"), .str ("u")), (("name"), .str ("n")),
                (("joined_at"), .str ("2024-01-01T00:00:00Z"))])
      = .ok (.dict [(("user_id"), .str ("u")), (("name"), .str ("n")), (("email"), .none),
                    (("instagram_handle"), .none), (("tiktok_handle"), .none),
                    (("joined_at"), .date ⟨2024, 1, 1, 0, 0, 0, some 0⟩),
                    (("advocacy_programs"), .list [])]) ∧
    AdvocateIngester._clean_advocate
        (.dict [(("user_id"), .str ("u")), (("name"), .str ("n")), (("email"), .none),
                (("instagram_handle"), .none), (("tiktok_handle"), .none),
                (("joined_at"), .date ⟨2024, 1, 1, 0, 0, 0, some 0⟩),
                (("advocacy_programs"), .list [])])
      = .ok (.dict [(("user_id"), .str ("u")), (("name"), .str ("n")), (("email"), .none),
                    (("instagram_handle"), .none), (("tiktok_handle"), .none),
                    (("joined_at"), .none),
                    (("advocacy_programs"), .list [])]) ∧
    (PyVal.date ⟨2024, 1, 1, 0, 0, 0, some 0⟩) ≠ PyVal.none := by
  exact ⟨by decide, by decide, by decide⟩

/-- C7 counterexample: a file whose JSON array holds two schema-invalid
records contributes `records_invalid = 2`, but both quarantine writes
target the same artifact name `<stem>_record_invalid.json`, so only one
artifact remains in the failed-validation directory — not J = 2. -/
theorem C7_counterexample_one_artifact_for_two_failures :
    (AdvocateIngester.run ("data")
        (some [⟨("b.json"), .strictOk (.list [.dict [(("name"), .str ("x"))],
                                              .dict [(("name"), .str ("y"))]])⟩])
        true).map
      (fun r => (r.stats.records_invalid, r.failedValidationDir.map Prod.fst)) =
      .ok (2, [("b_record_invalid.json")]) := by
  decide

/-- C9 counterexample: a directory containing only the junk entry
`._a.json` yields an empty worklist, and `run()` does short-circuit — but
the returned stats are not zero-valued: the junk entry was counted in
`files_seen` (the scanner counts every `*.json` glob match before the
junk filter) as well as in `files_skipped`. -/
theorem C9_counterexample_junk_only_dir_not_zero :
    AdvocateIngester.run ("data") (some [⟨("._a.json"), .notText⟩]) false
      = .ok ⟨⟨1, 0, 1, 0, 0⟩, [], [], [], []⟩ ∧
    (⟨1, 0, 1, 0, 0⟩ : IngestStats) ≠ IngestStats.init := by
  exact ⟨by decide, by decide⟩

/-- C3 counterexample: cleaning raises.  A number in the email field makes
`clean_email` raise `TypeError` (`"@" not in 1`), a number in a handle
field makes `clean_handle` raise `AttributeError` (`.strip` on `int`), and
`_clean_advocate` propagates the exception instead of returning a
fallback. -/
theorem C3_counterexample_number_email_raises :
    CleaningUtils.clean_email (.int 1) = .error .typeError ∧
    CleaningUtils.clean_handle (.int 1) = .error .attributeError ∧
    AdvocateIngester._clean_advocate
        (.dict [(("user_id"), .str ("u")), (("name"), .str ("n")), (("email"), .int 1)])
      = .error .typeError := by
  exact ⟨by decide, by decide, by decide⟩

theorem exists_ok_ite (c : Bool) (a b : PyVal) :
    ∃ r, (if c = true then Except.ok (ε := PyErr) a else Except.ok b) = .ok r := by
  cases c
  · exact ⟨b, rfl⟩
  · exact ⟨a, rfl⟩

theorem clean_email_ok_of_strOrFalsy (v : PyVal) (h : strOrFalsy v = true) :
    ∃ r, CleaningUtils.clean_email v = .ok r := by
  cases v with
  | str s =>
    unfold CleaningUtils.clean_email
    cases hts : truthy (.str s) with
    | false => simp only [hts, Bool.not_false, if_true]; exact ⟨_, rfl⟩
    | true =>
      simp only [hts, Bool.not_true, Bool.false_eq_true, if_false, containsAt]
      cases hc : s.toList.contains ('@') with
      | false => exact ⟨_, rfl⟩
      | true => exact exists_ok_ite _ _ _
  | none => exact ⟨_, rfl⟩
  | bool b =>
    simp only [strOrFalsy, Bool.not_eq_true'] at h
    unfold CleaningUtils.clean_email
    simp only [h, Bool.not_false, if_true]
    exact ⟨_, rfl⟩
  | int n =>
    simp only [strOrFalsy, Bool.not_eq_true'] at h
    unfold CleaningUtils.clean_email
    simp only [h, Bool.not_false, if_true]
    exact ⟨_, rfl⟩
  | float q =>
    simp only [strOrFalsy, Bool.not_eq_true'] at h
    unfold CleaningUtils.clean_email
    simp only [h, Bool.not_false, if_true]
    exact ⟨_, rfl⟩
  | list xs =>
    simp only [strOrFalsy, Bool.not_eq_true'] at h
    unfold CleaningUtils.clean_email
    simp only [h, Bool.not_false, if_true]
    exact ⟨_, rfl⟩
  | dict kvs =>
    simp only [strOrFalsy, Bool.not_eq_true'] at h
    unfold CleaningUtils.clean_email
    simp only [h, Bool.not_false, if_true]
    exact ⟨_, rfl⟩
  | date d => simp [strOrFalsy, truthy] at h

theorem clean_handle_ok_of_strOrFalsy (v : PyVal) (h : strOrFalsy v = true) :
    ∃ r, CleaningUtils.clean_handle v = .ok r := by
  cases v with
  | str s =>
    unfold CleaningUtils.clean_handle
    cases hts : truthy (.str s) with
    | false => simp only [hts, Bool.not_false, if_true]; exact ⟨_, rfl⟩
    | true =>
      simp only [hts, Bool.not_true, Bool.false_eq_true, if_false]
      exact ⟨_, rfl⟩
  | none => exact ⟨_, rfl⟩
  | bool b =>
    simp only [strOrFalsy, Bool.not_eq_true'] at h
    unfold CleaningUtils.clean_handle
    simp only [h, Bool.not_false, if_true]
    exact ⟨_, rfl⟩
  | int n =>
    simp only [strOrFalsy, Bool.not_eq_true'] at h
    unfold CleaningUtils.clean_handle
    simp only [h, Bool.not_false, if_true]
    exact ⟨_, rfl⟩
  | float q =>
    simp only [strOrFalsy, Bool.not_eq_true'] at h
    unfold CleaningUtils.clean_handle
    simp only [h, Bool.not_false, if_true]
    exact ⟨_, rfl⟩
  | list xs =>
    simp only [strOrFalsy, Bool.not_eq_true'] at h
    unfold CleaningUtils.clean_handle
    simp only [h, Bool.not_false, if_true]
    exact ⟨_, rfl⟩
  | dict kvs =>
    simp only [strOrFalsy, Bool.not_eq_true'] at h
    unfold CleaningUtils.clean_handle
    simp only [h, Bool.not_false, if_true]
    exact ⟨_, rfl⟩
  | date d => simp [strOrFalsy, truthy] at h

theorem exceptMapList_ok_of_all {g : PyVal → Except PyErr PyVal} :
    ∀ xs : List PyVal, (∀ x ∈ xs, ∃ y, g x = .ok y) →
      ∃ ys, exceptMapList g xs = .ok ys
  | [], _ => ⟨[], rfl⟩
  | x :: xs, h => by
    obtain ⟨y, hy⟩ := h x (List.mem_cons_self x xs)
    obtain ⟨ys, hys⟩ := exceptMapList_ok_of_all xs (fun a ha => h a (List.mem_cons_of_mem x ha))
    refine ⟨y :: ys, ?_⟩
    simp only [exceptMapList, hy, hys, Bind.bind, Except.bind]
    rfl

theorem clean_task_dict_ok (kvs : List (String × PyVal)) :
    ∃ r, AdvocateIngester._clean_task (.dict kvs) = .ok r :=
  ⟨_, rfl⟩

theorem clean_program_ok_of_safe (v : PyVal) (h : programSafe v = true) :
    ∃ r, AdvocateIngester._clean_program v = .ok r := by
  cases v with
  | dict kvs =>
    simp only [programSafe] at h
    unfold AdvocateIngester._clean_program
    cases hl : lookup? kvs ("tasks_completed") with
    | none =>
      simp only [pyGet, pyGetD, hl, Bind.bind, Except.bind, Option.getD, pyIterMap, exceptMapList]
      exact ⟨_, rfl⟩
    | some tv =>
      rw [hl] at h
      cases tv with
      | list xs =>
        have hall : ∀ x ∈ xs, ∃ y, AdvocateIngester._clean_task x = .ok y := by
          intro x hx
          have hd := List.all_eq_true.mp h x hx
          cases x with
          | dict tkvs => exact clean_task_dict_ok tkvs
          | none => simp [dictLike] at hd
          | bool b => simp [dictLike] at hd
          | int n => simp [dictLike] at hd
          | float q => simp [dictLike] at hd
          | str s => simp [dictLike] at hd
          | list l => simp [dictLike] at hd
          | date d => simp [dictLike] at hd
        obtain ⟨ys, hys⟩ := exceptMapList_ok_of_all xs hall
        simp only [pyGet, pyGetD, hl, Bind.bind, Except.bind, Option.getD, pyIterMap, hys]
        exact ⟨_, rfl⟩
      | none => simp at h
      | bool b => simp at h
      | int n => simp at h
      | float q => simp at h
      | str s => simp at h
      | dict d => simp at h
      | date d => simp at h
  | none => simp [programSafe] at h
  | bool b => simp [programSafe] at h
  | int n => simp [programSafe] at h
  | float q => simp [programSafe] at h
  | str s => simp [programSafe] at h
  | list l => simp [programSafe] at h
  | date d => simp [programSafe] at h

theorem clean_advocate_ok_of_safe (v : PyVal) (h : advRecordSafe v = true) :
    ∃ c, AdvocateIngester._clean_advocate v = .ok c := by
  cases v with
  | dict kvs =>
    simp only [advRecordSafe, Bool.and_eq_true] at h
    obtain ⟨⟨⟨hem, hig⟩, htk⟩, hprogs⟩ := h
    obtain ⟨emr, hemr⟩ := clean_email_ok_of_strOrFalsy _ hem
    obtain ⟨igr, higr⟩ := clean_handle_ok_of_strOrFalsy _ hig
    obtain ⟨tkr, htkr⟩ := clean_handle_ok_of_strOrFalsy _ htk
    unfold AdvocateIngester._clean_advocate
    cases hl : lookup? kvs ("advocacy_programs") with
    | none =>
      simp only [pyGet, pyGetD, hl, Bind.bind, Except.bind, pyIterMap,
        exceptMapList, hemr, higr, htkr]
      exact ⟨_, rfl⟩
    | some pv =>
      rw [hl] at hprogs
      cases pv with
      | list xs =>
        have hall : ∀ x ∈ xs, ∃ y, AdvocateIngester._clean_program x = .ok y := by
          intro x hx
          exact clean_program_ok_of_safe x (List.all_eq_true.mp hprogs x hx)
        obtain ⟨ys, hys⟩ := exceptMapList_ok_of_all xs hall
        simp only [pyGet, pyGetD, hl, Bind.bind, Except.bind, pyIterMap,
          Option.getD_some, hemr, higr, htkr, hys]
        exact ⟨_, rfl⟩
      | none => simp at hprogs
      | bool b => simp at hprogs
      | int n => simp at hprogs
      | float q => simp at hprogs
      | str s => simp at hprogs
      | dict d => simp at hprogs
      | date d => simp at hprogs
  | none => simp [advRecordSafe] at h
  | bool b => simp [advRecordSafe] at h
  | int n => simp [advRecordSafe] at h
  | float q => simp [advRecordSafe] at h
  | str s => simp [advRecordSafe] at h
  | list l => simp [advRecordSafe] at h
  | date d => simp [advRecordSafe] at h

/-- C3 amended: the never-raises guarantee holds for string-or-absent
field values, not for arbitrary JSON values.  `clean_email` and
`clean_handle` return a value (canonical or absent) for every string or
falsy input, and `_clean_advocate` returns a cleaned record for every
record that is a dict whose email/handle values are strings-or-falsy and
whose `advocacy_programs` (and nested `tasks_completed`) are lists of
dicts.  (`clean_date`, `clean_int`, `clean_float`, `clean_url` and
`serialise_dates` are total functions of the embedding: their `try`
blocks catch every exception.)  The companion counterexample shows the
guarantee fails for a number in the email or handle field. -/
theorem C3_amended_cleaning_totality :
    (∀ v, strOrFalsy v = true →
      (∃ r, CleaningUtils.clean_email v = .ok r) ∧
      (∃ r, CleaningUtils.clean_handle v = .ok r)) ∧
    (∀ v, advRecordSafe v = true → ∃ c, AdvocateIngester._clean_advocate v = .ok c) :=
  ⟨fun v h => ⟨clean_email_ok_of_strOrFalsy v h, clean_handle_ok_of_strOrFalsy v h⟩,
   fun v h => clean_advocate_ok_of_safe v h⟩

/-- Witness for C3's amended theorem at concrete inputs. -/
theorem C3_amended_witness :
    ((∃ r, CleaningUtils.clean_email (.str ("a@b.co")) = .ok r) ∧
      (∃ r, CleaningUtils.clean_handle (.str ("a@b.co")) = .ok r)) ∧
    (∃ c, AdvocateIngester._clean_advocate
      (.dict [(("user_id"), .str ("u")), (("email"), .str ("a@b.co"))]) = .ok c) :=
  ⟨C3_amended_cleaning_totality.1 (.str ("a@b.co")) (by decide),
   C3_amended_cleaning_totality.2
     (.dict [(("user_id"), .str ("u")), (("email"), .str ("a@b.co"))]) (by decide)⟩

/-- C2 counterexample: the worker-task body `_process_file` mutates the
shared `IngestStats` itself — already for a file that is skipped, the
worker increments `files_skipped` — so the stats counters are not touched
exclusively at the Coordinator aggregation point. -/
theorem C2_counterexample_worker_mutates_stats :
    AdvocateIngester._process_file ("data") ⟨IngestStats.init, [], []⟩ ⟨("a.json"), .notText⟩
      = .ok (⟨⟨0, 0, 1, 0, 0⟩, [], []⟩, []) ∧
    (⟨0, 0, 1, 0, 0⟩ : IngestStats) ≠ IngestStats.init := by
  exact ⟨by decide, by decide⟩

theorem except_bind_ok_iff {ε α β : Type} {e : Except ε α} {f : α → Except ε β} {b : β} :
    (e >>= f) = .ok b ↔ ∃ a, e = .ok a ∧ f a = .ok b := by
  cases e with
  | ok a => simp [Bind.bind, Except.bind]
  | error err => simp [Bind.bind, Except.bind]

theorem writeArtifact_same_name (D : ArtifactDir) (n : String) (p q : PyVal) :
    writeArtifact (writeArtifact D n p) n q = writeArtifact D n q := by
  simp [writeArtifact, List.filter_append]

theorem processRecord_inv {d : String} {f : IngestFile} {st : AdvocateIngester.ProcState} {advs : List Advocate}
    {r : PyVal} {st' : AdvocateIngester.ProcState} {advs' : List Advocate}
    (h : AdvocateIngester.processRecord d f st advs r = .ok (st', advs')) :
    st'.stats.files_seen = st.stats.files_seen ∧
    st'.stats.files_parsed = st.stats.files_parsed ∧
    st'.stats.files_skipped = st.stats.files_skipped ∧
    st'.invalidJsonDir = st.invalidJsonDir ∧
    ((recordOutcome r = some true ∧
        st'.stats.records_valid = st.stats.records_valid + 1 ∧
        st'.stats.records_invalid = st.stats.records_invalid ∧
        st'.failedValidationDir = st.failedValidationDir ∧
        advs'.length = advs.length + 1) ∨
     (recordOutcome r = some false ∧
        st'.stats.records_valid = st.stats.records_valid ∧
        st'.stats.records_invalid = st.stats.records_invalid + 1 ∧
        advs' = advs ∧
        (st'.failedValidationDir = st.failedValidationDir ∨
         ∃ p, st'.failedValidationDir = writeArtifact st.failedValidationDir (failedArtifactName f) p))) := by
  unfold AdvocateIngester.processRecord at h
  cases hc : AdvocateIngester._clean_advocate r with
  | error e => rw [hc] at h; simp [Bind.bind, Except.bind] at h
  | ok c =>
    rw [hc] at h
    simp only [Bind.bind, Except.bind] at h
    cases ht : truthy c with
    | false =>
      simp only [ht, Bool.not_false, if_true, Pure.pure, Except.pure, Except.ok.injEq,
        Prod.mk.injEq] at h
      obtain ⟨hst, hadv⟩ := h
      subst hst hadv
      refine ⟨rfl, rfl, rfl, rfl, Or.inr ⟨?_, rfl, rfl, rfl, Or.inl rfl⟩⟩
      simp [recordOutcome, hc, ht]
    | true =>
      simp only [ht, Bool.not_true, Bool.false_eq_true, if_false] at h
      cases hv : validateAdvocate c with
      | error e => rw [hv] at h; simp at h
      | ok vres =>
        rw [hv] at h
        cases vres with
        | error errs =>
          simp only [Pure.pure, Except.pure, Except.ok.injEq, Prod.mk.injEq] at h
          obtain ⟨hst, hadv⟩ := h
          subst hst hadv
          refine ⟨rfl, rfl, rfl, rfl, Or.inr ⟨?_, rfl, rfl, rfl, Or.inr ⟨_, rfl⟩⟩⟩
          simp [recordOutcome, hc, ht, hv]
        | ok model =>
          simp only [Pure.pure, Except.pure, Except.ok.injEq, Prod.mk.injEq] at h
          obtain ⟨hst, hadv⟩ := h
          subst hst hadv
          refine ⟨rfl, rfl, rfl, rfl, Or.inl ⟨?_, rfl, rfl, rfl, by simp⟩⟩
          simp [recordOutcome, hc, ht, hv]

theorem processRecords_inv {d : String} {f : IngestFile} :
    ∀ (rs : List PyVal) (st : AdvocateIngester.ProcState) (advs : List Advocate)
      (st' : AdvocateIngester.ProcState) (advs' : List Advocate),
    AdvocateIngester.processRecords d f st advs rs = .ok (st', advs') →
    st'.stats.files_seen = st.stats.files_seen ∧
    st'.stats.files_parsed = st.stats.files_parsed ∧
    st'.stats.files_skipped = st.stats.files_skipped ∧
    st'.invalidJsonDir = st.invalidJsonDir ∧
    st'.stats.records_valid = st.stats.records_valid + countValidRecords rs ∧
    st'.stats.records_invalid = st.stats.records_invalid + countInvalidRecords rs ∧
    advs'.length = advs.length + countValidRecords rs ∧
    (st'.failedValidationDir = st.failedValidationDir ∨
     ∃ p, st'.failedValidationDir = writeArtifact st.failedValidationDir (failedArtifactName f) p)
  | [], st, advs, st', advs', h => by
    unfold AdvocateIngester.processRecords at h
    simp only [Except.ok.injEq, Prod.mk.injEq] at h
    obtain ⟨h1, h2⟩ := h
    subst h1 h2
    simp [countValidRecords, countInvalidRecords]
  | r :: rs, st, advs, st', advs', h => by
    unfold AdvocateIngester.processRecords at h
    rw [except_bind_ok_iff] at h
    obtain ⟨⟨st1, advs1⟩, h1, h2⟩ := h
    obtain ⟨e1, e2, e3, e4, hcase⟩ := processRecord_inv h1
    obtain ⟨f1, f2, f3, f4, f5, f6, f7, f8⟩ := processRecords_inv rs st1 advs1 st' advs' h2
    have hdir : st'.failedValidationDir = st.failedValidationDir ∨
        ∃ p, st'.failedValidationDir =
          writeArtifact st.failedValidationDir (failedArtifactName f) p := by
      rcases hcase with ⟨_, _, _, hfd, _⟩ | ⟨_, _, _, _, hfd⟩
      · rw [hfd] at f8
        exact f8
      · rcases hfd with hfd | ⟨p, hfd⟩
        · rw [hfd] at f8
          exact f8
        · rcases f8 with f8 | ⟨q, f8⟩
          · rw [hfd] at f8
            exact Or.inr ⟨p, f8⟩
          · rw [hfd, writeArtifact_same_name] at f8
            exact Or.inr ⟨q, f8⟩
    rcases hcase with ⟨ho, h5, h6, _, h8⟩ | ⟨ho, h5, h6, h7, _⟩
    · refine ⟨by omega, by omega, by omega, by rw [f4, e4], ?_, ?_, ?_, hdir⟩
      · rw [f5, h5]
        simp [countValidRecords, List.countP_cons, ho]
        omega
      · rw [f6, h6]
        simp [countInvalidRecords, List.countP_cons, ho]
      · rw [f7, h8]
        simp [countValidRecords, List.countP_cons, ho]
        omega
    · refine ⟨by omega, by omega, by omega, by rw [f4, e4], ?_, ?_, ?_, hdir⟩
      · rw [f5, h5]
        simp [countValidRecords, List.countP_cons, ho]
      · rw [f6, h6]
        simp [countInvalidRecords, List.countP_cons, ho]
        omega
      · rw [f7, h7]
        simp [countValidRecords, List.countP_cons, ho]

theorem process_file_inv {d : String} {st st' : AdvocateIngester.ProcState}
    {f : IngestFile} {advs : List Advocate}
    (h : AdvocateIngester._process_file d st f = .ok (st', advs)) :
    st'.stats.files_seen = st.stats.files_seen ∧
    st'.stats.files_parsed + st'.stats.files_skipped
      = st.stats.files_parsed + st.stats.files_skipped + 1 ∧
    st'.stats.records_valid = st.stats.records_valid + advs.length := by
  unfold AdvocateIngester._process_file AdvocateIngester._load_json at h
  cases hl : f.load with
  | notText =>
    rw [hl] at h
    simp only [Except.ok.injEq, Prod.mk.injEq] at h
    obtain ⟨h1, h2⟩ := h
    subst h1 h2
    exact ⟨rfl, by dsimp only; omega, by simp⟩
  | readError =>
    rw [hl] at h
    simp only [Except.ok.injEq, Prod.mk.injEq] at h
    obtain ⟨h1, h2⟩ := h
    subst h1 h2
    exact ⟨rfl, by dsimp only; omega, by simp⟩
  | unparsable raw =>
    rw [hl] at h
    simp only [Except.ok.injEq, Prod.mk.injEq] at h
    obtain ⟨h1, h2⟩ := h
    subst h1 h2
    exact ⟨rfl, by dsimp only; omega, by simp⟩
  | strictOk v =>
    rw [hl] at h
    obtain ⟨e1, e2, e3, _, e5, _, e7, _⟩ :=
      processRecords_inv (flattenPayload v) _ [] st' advs h
    dsimp only at e1 e2 e3 e5 e7
    simp only [List.length_nil, Nat.zero_add] at e7
    exact ⟨e1, by omega, by omega⟩
  | json5Ok v =>
    rw [hl] at h
    obtain ⟨e1, e2, e3, _, e5, _, e7, _⟩ :=
      processRecords_inv (flattenPayload v) _ [] st' advs h
    dsimp only at e1 e2 e3 e5 e7
    simp only [List.length_nil, Nat.zero_add] at e7
    exact ⟨e1, by omega, by omega⟩

/-- C2 amended: the batch buffer lives only in the Coordinator's
aggregation state, but the IngestStats counters are mutated directly by
the worker-task body: every completed `_process_file` call returns a
strictly changed stats record (it bumps `files_parsed` or
`files_skipped`, and the records counters while cleaning/validating). -/
theorem C2_amended_worker_always_mutates_stats :
    ∀ (d : String) (st : AdvocateIngester.ProcState) (f : IngestFile)
      (st' : AdvocateIngester.ProcState) (advs : List Advocate),
    AdvocateIngester._process_file d st f = .ok (st', advs) → st'.stats ≠ st.stats := by
  intro d st f st' advs h heq
  obtain ⟨-, hsum, -⟩ := process_file_inv h
  rw [heq] at hsum
  omega

/-- Witness for C2's amended theorem at a concrete skipped file. -/
theorem C2_amended_witness :
    AdvocateIngester._process_file ("data") ⟨IngestStats.init, [], []⟩ ⟨("a.json"), .notText⟩
        = .ok (⟨⟨0, 0, 1, 0, 0⟩, [], []⟩, []) ∧
      (⟨⟨0, 0, 1, 0, 0⟩, [], []⟩ : AdvocateIngester.ProcState).stats ≠
        (⟨IngestStats.init, [], []⟩ : AdvocateIngester.ProcState).stats :=
  ⟨by decide,
   C2_amended_worker_always_mutates_stats ("data") ⟨IngestStats.init, [], []⟩
     ⟨("a.json"), .notText⟩ ⟨⟨0, 0, 1, 0, 0⟩, [], []⟩ [] (by decide)⟩

/-- A candidate entry: matches the `*.json` glob and is not junk. -/
theorem countP_split (p q : IngestFile → Bool) :
    ∀ l : List IngestFile,
      l.countP p = l.countP (fun f => p f && q f) + l.countP (fun f => p f && !q f)
  | [] => rfl
  | f :: l => by
    simp only [List.countP_cons]
    have := countP_split p q l
    cases hp : p f <;> cases hq : q f <;> simp [hp, hq] <;> omega

theorem scan_foldl_eq (entries : List IngestFile) :
    ∀ (s0 : IngestStats) (wl0 : List IngestFile),
      entries.foldl AdvocateIngester.scanStep (s0, wl0) =
      (⟨s0.files_seen + entries.countP (fun f => matchesJsonGlob f.name),
        s0.files_parsed,
        s0.files_skipped + entries.countP (fun f => matchesJsonGlob f.name && isJunkName f.name),
        s0.records_valid, s0.records_invalid⟩,
       wl0 ++ entries.filter (fun f => matchesJsonGlob f.name && !isJunkName f.name)) := by
  induction entries with
  | nil =>
    intro s0 wl0
    simp
  | cons f l ih =>
    intro s0 wl0
    simp only [List.foldl_cons, List.countP_cons, List.filter_cons]
    cases hg : matchesJsonGlob f.name with
    | false =>
      rw [show AdvocateIngester.scanStep (s0, wl0) f = (s0, wl0) from by
        simp [AdvocateIngester.scanStep, hg]]
      rw [ih s0 wl0]
      simp [hg]
    | true =>
      cases hj : isJunkName f.name with
      | true =>
        rw [show AdvocateIngester.scanStep (s0, wl0) f =
            ({ s0 with files_seen := s0.files_seen + 1,
                       files_skipped := s0.files_skipped + 1 }, wl0) from by
          simp [AdvocateIngester.scanStep, hg, hj]]
        rw [ih _ wl0]
        simp only [hg, hj, Bool.and_self, Bool.not_true, Bool.and_false, Bool.false_eq_true,
          if_true, if_false, Prod.mk.injEq, IngestStats.mk.injEq]
        exact ⟨⟨by omega, by simp, by omega, by simp, by simp⟩, by simp⟩
      | false =>
        rw [show AdvocateIngester.scanStep (s0, wl0) f =
            ({ s0 with files_seen := s0.files_seen + 1 }, wl0 ++ [f]) from by
          simp [AdvocateIngester.scanStep, hg, hj]]
        rw [ih _ (wl0 ++ [f])]
        simp only [hg, hj, Bool.and_true, Bool.and_false, Bool.not_false, Bool.false_eq_true,
          if_true, if_false, Prod.mk.injEq, IngestStats.mk.injEq]
        exact ⟨⟨by omega, by simp, by omega, by simp, by simp⟩, by simp⟩

theorem processLoop_files_inv {d : String} {wtd : Bool} :
    ∀ (fs : List IngestFile) (st : AdvocateIngester.ProcState)
      (agg : AdvocateIngester.AggState)
      (st' : AdvocateIngester.ProcState) (agg' : AdvocateIngester.AggState),
    AdvocateIngester.processLoop d wtd st agg fs = .ok (st', agg') →
    st'.stats.files_seen = st.stats.files_seen ∧
    st'.stats.files_parsed + st'.stats.files_skipped
      = st.stats.files_parsed + st.stats.files_skipped + fs.length
  | [], st, agg, st', agg', h => by
    unfold AdvocateIngester.processLoop at h
    simp only [Except.ok.injEq, Prod.mk.injEq] at h
    obtain ⟨h1, h2⟩ := h
    subst h1
    simp
  | f :: fs, st, agg, st', agg', h => by
    unfold AdvocateIngester.processLoop at h
    rw [except_bind_ok_iff] at h
    obtain ⟨⟨st1, advs⟩, h1, h2⟩ := h
    rw [except_bind_ok_iff] at h2
    obtain ⟨agg1, h2a, h2b⟩ := h2
    obtain ⟨e1, e2, _⟩ := process_file_inv h1
    obtain ⟨f1, f2⟩ := processLoop_files_inv fs st1 agg1 st' agg' h2b
    refine ⟨by omega, by simp [List.length_cons]; omega⟩

/-- C10: stats conservation.  For every completed `run()`, every file
counted in `files_seen` is accounted for as exactly one of
`files_parsed` or `files_skipped`: junk-prefixed entries are skipped by
the scanner, and each worklist file is parsed or skipped by exactly one
branch of `_process_file`. -/
theorem C10_stats_conservation :
    ∀ (d : String) (dir : Option (List IngestFile)) (wtd : Bool)
      (res : AdvocateIngester.RunResult),
    AdvocateIngester.run d dir wtd = .ok res →
    res.stats.files_parsed + res.stats.files_skipped = res.stats.files_seen := by
  intro d dir wtd res h
  unfold AdvocateIngester.run AdvocateIngester._iter_candidate_files at h
  cases dir with
  | none =>
    simp only [List.isEmpty_nil, if_true] at h
    cases h
    decide
  | some entries =>
    dsimp only at h
    rw [scan_foldl_eq entries IngestStats.init []] at h
    dsimp only at h
    simp only [List.nil_append] at h
    set wl := entries.filter (fun f => matchesJsonGlob f.name && !isJunkName f.name) with hwl
    have hcount := countP_split (fun f => matchesJsonGlob f.name) (fun f => isJunkName f.name) entries
    by_cases he : wl.isEmpty
    · rw [if_pos he] at h
      cases h
      have hwl0 : wl = [] := List.isEmpty_iff.mp he
      have hc0 : List.countP (fun f => matchesJsonGlob f.name && !isJunkName f.name) entries = 0 := by
        rw [List.countP_eq_length_filter, ← hwl, hwl0]
        rfl
      simp only [IngestStats.init]
      omega
    · rw [if_neg he] at h
      rw [except_bind_ok_iff] at h
      obtain ⟨⟨st1, agg1⟩, h1, h2⟩ := h
      obtain ⟨e1, e2⟩ := processLoop_files_inv wl _ _ st1 agg1 h1
      have hres : res.stats = st1.stats := by
        by_cases hb : agg1.batch.isEmpty
        · simp only [hb, Bool.not_true, Bool.false_eq_true, if_false, Pure.pure, Except.pure,
            Except.ok.injEq] at h2
          rw [← h2]
        · simp only [hb, Bool.not_false, if_true] at h2
          rw [except_bind_ok_iff] at h2
          obtain ⟨ds, hds, h2⟩ := h2
          cases ds with
          | true =>
            simp only [if_true, Pure.pure, Except.pure, Except.ok.injEq] at h2
            rw [← h2]
          | false =>
            simp only [Bool.false_eq_true, if_false, Pure.pure, Except.pure,
              Except.ok.injEq] at h2
            rw [← h2]
      rw [hres]
      rw [← List.countP_eq_length_filter] at e2
      simp only [IngestStats.init] at e1 e2
      omega

/-- Witness for C10 at a concrete completed run. -/
theorem C10_witness :
    (⟨⟨1, 0, 1, 0, 0⟩, [], [], [], []⟩ : AdvocateIngester.RunResult).stats.files_parsed +
        (⟨⟨1, 0, 1, 0, 0⟩, [], [], [], []⟩ : AdvocateIngester.RunResult).stats.files_skipped =
      (⟨⟨1, 0, 1, 0, 0⟩, [], [], [], []⟩ : AdvocateIngester.RunResult).stats.files_seen :=
  C10_stats_conservation ("data") (some [⟨("x.json"), .notText⟩]) false
    ⟨⟨1, 0, 1, 0, 0⟩, [], [], [], []⟩ (by decide)

/-- C9 amended: a missing directory gives a zero-valued run; the scanner
counts every `*.json` glob match in `files_seen` (junk `._` entries
included) and counts the junk matches in `files_skipped`; the worklist is
the non-junk matches; and an empty worklist short-circuits `run()` to the
scanner's stats — which are zero only when no `*.json` entry matched at
all. -/
theorem C9_amended_scanner_and_short_circuit :
    (∀ (d : String) (wtd : Bool),
      AdvocateIngester.run d Option.none wtd = .ok ⟨IngestStats.init, [], [], [], []⟩) ∧
    (∀ (entries : List IngestFile) (s0 : IngestStats),
      AdvocateIngester._iter_candidate_files (some entries) s0 =
        (⟨s0.files_seen + entries.countP (fun f => matchesJsonGlob f.name),
          s0.files_parsed,
          s0.files_skipped + entries.countP (fun f => matchesJsonGlob f.name && isJunkName f.name),
          s0.records_valid, s0.records_invalid⟩,
         entries.filter (fun f => matchesJsonGlob f.name && !isJunkName f.name))) ∧
    (∀ (d : String) (wtd : Bool) (entries : List IngestFile),
      entries.filter (fun f => matchesJsonGlob f.name && !isJunkName f.name) = [] →
      AdvocateIngester.run d (some entries) wtd =
        .ok ⟨(AdvocateIngester._iter_candidate_files (some entries) IngestStats.init).1,
             [], [], [], []⟩) := by
  refine ⟨fun d wtd => rfl, ?_, ?_⟩
  · intro entries s0
    unfold AdvocateIngester._iter_candidate_files
    dsimp only
    rw [scan_foldl_eq entries s0 []]
    simp
  · intro d wtd entries hfe
    unfold AdvocateIngester.run AdvocateIngester._iter_candidate_files
    dsimp only
    rw [scan_foldl_eq entries IngestStats.init []]
    dsimp only
    rw [List.nil_append, hfe]
    rfl

/-- Witness for C9's amended theorem: a junk-only directory
short-circuits with non-zero `files_seen`/`files_skipped`. -/
theorem C9_amended_witness :
    AdvocateIngester.run ("data") (some [⟨("._b.json"), .notText⟩]) false =
      .ok ⟨(AdvocateIngester._iter_candidate_files
              (some [⟨("._b.json"), .notText⟩]) IngestStats.init).1, [], [], [], []⟩ :=
  C9_amended_scanner_and_short_circuit.2.2 ("data") false [⟨("._b.json"), .notText⟩] (by decide)

theorem vStr_ok_inv {p : String} {o : Option PyVal} {s : String}
    (h : vStr p o = .ok s) : o = some (.str s) := by
  cases o with
  | none => simp [vStr] at h
  | some v =>
    cases v with
    | str t => simp only [vStr, Except.ok.injEq] at h; rw [h]
    | none => simp [vStr] at h
    | bool b => simp [vStr] at h
    | int n => simp [vStr] at h
    | float q => simp [vStr] at h
    | list xs => simp [vStr] at h
    | dict kvs => simp [vStr] at h
    | date dd => simp [vStr] at h

/-- C4 amended: a validated Advocate's `user_id` and `name` were present
in the input as string values — missing, null or non-string values are
rejected — but the counterexample theorem shows no non-emptiness or
non-negativity constraint exists: empty strings and negative task
counters validate. -/
theorem C4_amended_validated_fields_are_input_strings :
    ∀ (v : PyVal) (adv : Advocate),
    validateAdvocate v = .ok (.ok adv) →
    ∃ kvs, v = .dict kvs ∧
      lookup? kvs ("user_id") = some (.str adv.user_id) ∧
      lookup? kvs ("name") = some (.str adv.name) := by
  intro v adv h
  cases v with
  | dict kvs =>
    refine ⟨kvs, rfl, ?_⟩
    unfold validateAdvocate at h
    rw [except_bind_ok_iff] at h
    obtain ⟨ig, hig, h⟩ := h
    rw [except_bind_ok_iff] at h
    obtain ⟨tk, htk, h⟩ := h
    simp only [Pure.pure, Except.pure, Except.ok.injEq] at h
    cases hnm : vStr ("name") (lookup? kvs ("name")) with
    | error es =>
      rw [hnm] at h
      cases huid : vStr ("user_id") (lookup? kvs ("user_id")) with
      | error es2 => rw [huid] at h; simp at h
      | ok b => rw [huid] at h; simp at h
    | ok a =>
      rw [hnm] at h
      cases huid : vStr ("user_id") (lookup? kvs ("user_id")) with
      | error es2 => rw [huid] at h; simp at h
      | ok b =>
        rw [huid] at h
        cases hem : vEmail ("email") (lookup? kvs ("email")) with
        | error es3 => rw [hem] at h; simp at h
        | ok c =>
          rw [hem] at h
          cases hja : vDateTime ("joined_at") (lookup? kvs ("joined_at")) with
          | error es4 => rw [hja] at h; simp at h
          | ok dd =>
            rw [hja] at h
            cases hpr : (match lookup? kvs ("advocacy_programs") with
              | Option.none => (.ok [] : Except (List String) (List AdvocacyProgram))
              | some (.list xs) => validateProgramList ("advocacy_programs") 0 xs
              | some _ => .error [("advocacy_programs: list_type")]) with
            | error es5 => rw [hpr] at h; simp at h
            | ok e =>
              rw [hpr] at h
              simp only [Except.ok.injEq] at h
              rw [← h]
              exact ⟨vStr_ok_inv huid, vStr_ok_inv hnm⟩
  | none => simp [validateAdvocate, Pure.pure, Except.pure] at h
  | bool b => simp [validateAdvocate, Pure.pure, Except.pure] at h
  | int n => simp [validateAdvocate, Pure.pure, Except.pure] at h
  | float q => simp [validateAdvocate, Pure.pure, Except.pure] at h
  | str s => simp [validateAdvocate, Pure.pure, Except.pure] at h
  | list xs => simp [validateAdvocate, Pure.pure, Except.pure] at h
  | date dd => simp [validateAdvocate, Pure.pure, Except.pure] at h

/-- Witness for C4's amended theorem at a concrete validated record. -/
theorem C4_amended_witness :
    ∃ kvs, (PyVal.dict [(("user_id"), .str ("u1")), (("name"), .str ("Alice"))]) = .dict kvs ∧
      lookup? kvs ("user_id") =
        some (.str (Advocate.user_id ⟨("Alice"), ("u1"), Option.none, Option.none,
          Option.none, Option.none, [], []⟩)) ∧
      lookup? kvs ("name") =
        some (.str (Advocate.name ⟨("Alice"), ("u1"), Option.none, Option.none,
          Option.none, Option.none, [], []⟩)) :=
  C4_amended_validated_fields_are_input_strings
    (.dict [(("user_id"), .str ("u1")), (("name"), .str ("Alice"))])
    ⟨("Alice"), ("u1"), Option.none, Option.none, Option.none, Option.none, [], []⟩
    (by decide)

/-- C5 amended: every cleaned handle is absent or an `@`-led string of
characters from `[a-z0-9_@]`; the documented examples hold; but an
all-invalid input cleans to the bare `"@"` under
`CleaningUtils.clean_handle` (the record cleaner's rule) rather than to
absent — only the model-level `Advocate._clean_handle` collapses it to
absent. -/
theorem C5_amended_handle_characterization :
    (∀ (v r : PyVal), CleaningUtils.clean_handle v = .ok r →
      r = .none ∨ ∃ s : String, r = .str s ∧ startsWithAtSign s = true ∧
        s.toList.all handleChar = true) ∧
    CleaningUtils.clean_handle (.str ("  Alice__99 ")) = .ok (.str ("@alice__99")) ∧
    CleaningUtils.clean_handle (.str ("#Bad!!")) = .ok (.str ("@bad")) ∧
    CleaningUtils.clean_handle (.str ("!!!!")) = .ok (.str ("@")) ∧
    advCleanHandle (.str ("!!!!")) = .ok Option.none := by
  refine ⟨?_, by decide, by decide, by decide, by decide⟩
  intro v r h
  unfold CleaningUtils.clean_handle at h
  cases ht : truthy v with
  | false =>
    rw [ht] at h
    simp only [Bool.not_false, if_true, Except.ok.injEq] at h
    exact Or.inl h.symm
  | true =>
    rw [ht] at h
    simp only [Bool.not_true, Bool.false_eq_true, if_false] at h
    cases v with
    | str s =>
      simp only [Except.ok.injEq] at h
      refine Or.inr ⟨_, h.symm, ?_, ?_⟩
      · cases hsw : startsWithAtSign ⟨(pyLower (pyStrip s)).toList.filter handleChar⟩ with
        | true => simp only [hsw, if_true]
        | false =>
          simp only [hsw, Bool.false_eq_true, if_false]
          rfl
      · have hall : (List.filter handleChar (pyLower (pyStrip s)).toList).all handleChar = true := by
          rw [List.all_eq_true]
          intro x hx
          exact List.of_mem_filter hx
        cases hsw : startsWithAtSign ⟨(pyLower (pyStrip s)).toList.filter handleChar⟩ with
        | true => simp only [hsw, if_true]; exact hall
        | false =>
          simp only [hsw, Bool.false_eq_true, if_false]
          rw [List.all_eq_true]
          intro x hx
          have : x ∈ ('@') :: (pyLower (pyStrip s)).toList.filter handleChar := hx
          rcases List.mem_cons.mp this with hx1 | hx2
          · rw [hx1]; decide
          · exact List.of_mem_filter hx2
    | none => cases h
    | bool b => cases h
    | int n => cases h
    | float q => cases h
    | list xs => cases h
    | dict kvs => cases h
    | date dd => cases h

/-- Witness for C5's amended characterization at the all-invalid input. -/
theorem C5_amended_witness :
    (PyVal.str ("@") = .none ∨ ∃ s : String, PyVal.str ("@") = .str s ∧
      startsWithAtSign s = true ∧ s.toList.all handleChar = true) :=
  C5_amended_handle_characterization.1 (.str ("!!!!")) (.str ("@")) (by decide)

theorem aggregateAdvocate_true_inv {agg agg' : AdvocateIngester.AggState} {a : Advocate}
    (h : AdvocateIngester.aggregateAdvocate true agg a = .ok agg')
    (hb : agg.batch.length < BATCH_SIZE)
    (hf : ∀ b ∈ agg.flushes, b.length = BATCH_SIZE) :
    agg'.batch.length < BATCH_SIZE ∧
    (∀ b ∈ agg'.flushes, b.length = BATCH_SIZE) ∧
    (agg'.flushes.map List.length).sum + agg'.batch.length
      = (agg.flushes.map List.length).sum + agg.batch.length + 1 ∧
    agg'.advocates = agg.advocates := by
  unfold AdvocateIngester.aggregateAdvocate AdvocateIngester.getDatastore at h
  simp only [if_true, Bind.bind, Except.bind, Pure.pure, Except.pure] at h
  by_cases hs : BATCH_SIZE ≤ (agg.batch ++ [a.model_dump]).length
  · rw [if_pos hs] at h
    simp only [Except.ok.injEq] at h
    subst h
    simp only [List.length_append, List.length_cons, List.length_nil] at hs
    refine ⟨by simp [BATCH_SIZE], ?_, ?_, rfl⟩
    · intro b hbmem
      rcases List.mem_append.mp hbmem with hm | hm
      · exact hf b hm
      · rcases List.mem_singleton.mp hm with rfl
        simp only [List.length_append, List.length_cons, List.length_nil]
        omega
    · simp only [List.map_append, List.map_cons, List.map_nil, List.sum_append,
        List.sum_cons, List.sum_nil, List.length_append, List.length_cons,
        List.length_nil]
      omega
  · rw [if_neg hs] at h
    simp only [Except.ok.injEq] at h
    subst h
    simp only [List.length_append, List.length_cons, List.length_nil] at hs ⊢
    exact ⟨by omega, hf, by omega, by simp⟩

theorem aggregateAdvocates_true_inv :
    ∀ (advs : List Advocate) (agg agg' : AdvocateIngester.AggState),
    AdvocateIngester.aggregateAdvocates true agg advs = .ok agg' →
    agg.batch.length < BATCH_SIZE →
    (∀ b ∈ agg.flushes, b.length = BATCH_SIZE) →
    agg'.batch.length < BATCH_SIZE ∧
    (∀ b ∈ agg'.flushes, b.length = BATCH_SIZE) ∧
    (agg'.flushes.map List.length).sum + agg'.batch.length
      = (agg.flushes.map List.length).sum + agg.batch.length + advs.length ∧
    agg'.advocates = agg.advocates
  | [], agg, agg', h, hb, hf => by
    unfold AdvocateIngester.aggregateAdvocates at h
    simp only [Except.ok.injEq] at h
    subst h
    exact ⟨hb, hf, by simp, rfl⟩
  | a :: advs, agg, agg', h, hb, hf => by
    unfold AdvocateIngester.aggregateAdvocates at h
    rw [except_bind_ok_iff] at h
    obtain ⟨agg1, h1, h2⟩ := h
    obtain ⟨e1, e2, e3, e4⟩ := aggregateAdvocate_true_inv h1 hb hf
    obtain ⟨f1, f2, f3, f4⟩ := aggregateAdvocates_true_inv advs agg1 agg' h2 e1 e2
    exact ⟨f1, f2, by simp only [List.length_cons]; omega, by rw [f4, e4]⟩

theorem processLoop_true_inv {d : String} :
    ∀ (fs : List IngestFile) (st : AdvocateIngester.ProcState)
      (agg : AdvocateIngester.AggState)
      (st' : AdvocateIngester.ProcState) (agg' : AdvocateIngester.AggState),
    AdvocateIngester.processLoop d true st agg fs = .ok (st', agg') →
    agg.batch.length < BATCH_SIZE →
    (∀ b ∈ agg.flushes, b.length = BATCH_SIZE) →
    agg'.batch.length < BATCH_SIZE ∧
    (∀ b ∈ agg'.flushes, b.length = BATCH_SIZE) ∧
    (agg'.flushes.map List.length).sum + agg'.batch.length + st.stats.records_valid
      = (agg.flushes.map List.length).sum + agg.batch.length + st'.stats.records_valid ∧
    agg'.advocates = agg.advocates
  | [], st, agg, st', agg', h, hb, hf => by
    unfold AdvocateIngester.processLoop at h
    simp only [Except.ok.injEq, Prod.mk.injEq] at h
    obtain ⟨h1, h2⟩ := h
    subst h1 h2
    exact ⟨hb, hf, by simp, rfl⟩
  | f :: fs, st, agg, st', agg', h, hb, hf => by
    unfold AdvocateIngester.processLoop at h
    rw [except_bind_ok_iff] at h
    obtain ⟨⟨st1, advs⟩, h1, h2⟩ := h
    rw [except_bind_ok_iff] at h2
    obtain ⟨agg1, h2a, h2b⟩ := h2
    obtain ⟨_, _, e3⟩ := process_file_inv h1
    obtain ⟨g1, g2, g3, g4⟩ := aggregateAdvocates_true_inv advs agg agg1 h2a hb hf
    obtain ⟨k1, k2, k3, k4⟩ := processLoop_true_inv fs st1 agg1 st' agg' h2b g1 g2
    exact ⟨k1, k2, by omega, by rw [k4, g4]⟩

/-- C8: with a persistence sink configured, the batch buffer is flushed
exactly when it reaches `BATCH_SIZE` (every flush before the final one
has exactly 500 records, and the buffer is cleared so it never exceeds
the threshold), one final flush sends any non-empty remainder, and the
total number of records sent across all flushes equals `records_valid`;
nothing accumulates in the dry-run `self.advocates` list. -/
theorem C8_batch_flush_discipline :
    ∀ (d : String) (dir : Option (List IngestFile)) (res : AdvocateIngester.RunResult),
    AdvocateIngester.run d dir true = .ok res →
    (res.flushes.map List.length).sum = res.stats.records_valid ∧
    (∀ b ∈ res.flushes.dropLast, b.length = BATCH_SIZE) ∧
    (∀ b ∈ res.flushes, 1 ≤ b.length ∧ b.length ≤ BATCH_SIZE) ∧
    res.advocates = [] := by
  intro d dir res h
  unfold AdvocateIngester.run AdvocateIngester._iter_candidate_files at h
  cases dir with
  | none =>
    simp only [List.isEmpty_nil, if_true] at h
    cases h
    refine ⟨rfl, ?_, ?_, rfl⟩
    · intro b hb
      simp at hb
    · intro b hb
      simp at hb
  | some entries =>
    dsimp only at h
    rw [scan_foldl_eq entries IngestStats.init []] at h
    dsimp only at h
    simp only [List.nil_append] at h
    by_cases he : (entries.filter (fun f => matchesJsonGlob f.name && !isJunkName f.name)).isEmpty
    · rw [if_pos he] at h
      cases h
      refine ⟨rfl, ?_, ?_, rfl⟩
      · intro b hb
        simp at hb
      · intro b hb
        simp at hb
    · rw [if_neg he] at h
      rw [except_bind_ok_iff] at h
      obtain ⟨⟨st1, agg1⟩, h1, h2⟩ := h
      obtain ⟨k1, k2, k3, k4⟩ := processLoop_true_inv _ _ _ st1 agg1 h1
        (by simp [BATCH_SIZE]) (by intro b hb; simp at hb)
      dsimp only at k1 k2 k3 k4
      simp only [List.map_nil, List.sum_nil, List.length_nil, IngestStats.init] at k3
      by_cases hb2 : agg1.batch.isEmpty
      · simp only [hb2, Bool.not_true, Bool.false_eq_true, if_false, Pure.pure, Except.pure,
          Except.ok.injEq] at h2
        subst h2
        dsimp only
        have hb0 : agg1.batch.length = 0 := by
          rw [List.isEmpty_iff.mp hb2]
          rfl
        refine ⟨by omega, ?_, ?_, k4⟩
        · intro b hbm
          exact k2 b (List.dropLast_subset _ hbm)
        · intro b hbm
          have := k2 b hbm
          constructor <;> omega
      · simp only [hb2, Bool.not_false, if_true, Bind.bind, Except.bind,
          AdvocateIngester.getDatastore, if_true, Pure.pure, Except.pure,
          Except.ok.injEq] at h2
        subst h2
        dsimp only
        have hb0 : 1 ≤ agg1.batch.length := by
          cases hbl : agg1.batch with
          | nil => rw [hbl] at hb2; simp at hb2
          | cons x xs => simp [hbl]
        refine ⟨?_, ?_, ?_, k4⟩
        · simp only [List.map_append, List.map_cons, List.map_nil, List.sum_append,
            List.sum_cons, List.sum_nil]
          omega
        · intro b hbm
          rw [List.dropLast_concat] at hbm
          exact k2 b hbm
        · intro b hbm
          rcases List.mem_append.mp hbm with hm | hm
          · have := k2 b hm
            constructor <;> omega
          · rcases List.mem_singleton.mp hm with rfl
            constructor <;> omega

/-- Witness for C8 at a concrete run with one validated advocate. -/
theorem C8_witness :
    ((AdvocateIngester.RunResult.flushes
        ⟨⟨1, 1, 0, 1, 0⟩,
         [],
         [[Advocate.model_dump ⟨("Alice"), ("u1"), Option.none, Option.none,
            Option.none, Option.none, [], []⟩]],
         [], []⟩).map List.length).sum =
      (AdvocateIngester.RunResult.stats
        ⟨⟨1, 1, 0, 1, 0⟩,
         [],
         [[Advocate.model_dump ⟨("Alice"), ("u1"), Option.none, Option.none,
            Option.none, Option.none, [], []⟩]],
         [], []⟩).records_valid :=
  (C8_batch_flush_discipline ("data")
    (some [⟨("a.json"), .strictOk (.dict [(("user_id"), .str ("u1")), (("name"), .str ("Alice"))])⟩])
    ⟨⟨1, 1, 0, 1, 0⟩,
     [],
     [[Advocate.model_dump ⟨("Alice"), ("u1"), Option.none, Option.none,
        Option.none, Option.none, [], []⟩]],
     [], []⟩ (by decide)).1

theorem processRecord_failedDir {d : String} {f : IngestFile}
    {st : AdvocateIngester.ProcState} {advs : List Advocate} {r : PyVal}
    {st' : AdvocateIngester.ProcState} {advs' : List Advocate}
    (h : AdvocateIngester.processRecord d f st advs r = .ok (st', advs')) :
    st'.failedValidationDir = st.failedValidationDir ∨
    ∃ (errs : List String) (recV : PyVal), st'.failedValidationDir =
      writeArtifact st.failedValidationDir (failedArtifactName f)
        (.dict [(("source_file"), .str (d ++ ("/") ++ f.name)),
                (("validation_errors"), .list (errs.map PyVal.str)),
                (("record"), recV)]) := by
  unfold AdvocateIngester.processRecord at h
  cases hc : AdvocateIngester._clean_advocate r with
  | error e => rw [hc] at h; simp [Bind.bind, Except.bind] at h
  | ok c =>
    rw [hc] at h
    simp only [Bind.bind, Except.bind] at h
    cases ht : truthy c with
    | false =>
      simp only [ht, Bool.not_false, if_true, Pure.pure, Except.pure, Except.ok.injEq,
        Prod.mk.injEq] at h
      obtain ⟨hst, -⟩ := h
      subst hst
      exact Or.inl rfl
    | true =>
      simp only [ht, Bool.not_true, Bool.false_eq_true, if_false] at h
      cases hv : validateAdvocate c with
      | error e => rw [hv] at h; simp at h
      | ok vres =>
        rw [hv] at h
        cases vres with
        | error errs =>
          simp only [Pure.pure, Except.pure, Except.ok.injEq, Prod.mk.injEq] at h
          obtain ⟨hst, -⟩ := h
          subst hst
          exact Or.inr ⟨errs, CleaningUtils.serialise_dates c, rfl⟩

        | ok model =>
          simp only [Pure.pure, Except.pure, Except.ok.injEq, Prod.mk.injEq] at h
          obtain ⟨hst, -⟩ := h
          subst hst
          exact Or.inl rfl

theorem processRecords_failedDir {d : String} {f : IngestFile} :
    ∀ (rs : List PyVal) (st : AdvocateIngester.ProcState) (advs : List Advocate)
      (st' : AdvocateIngester.ProcState) (advs' : List Advocate),
    AdvocateIngester.processRecords d f st advs rs = .ok (st', advs') →
    st'.failedValidationDir = st.failedValidationDir ∨
    ∃ (errs : List String) (recV : PyVal), st'.failedValidationDir =
      writeArtifact st.failedValidationDir (failedArtifactName f)
        (.dict [(("source_file"), .str (d ++ ("/") ++ f.name)),
                (("validation_errors"), .list (errs.map PyVal.str)),
                (("record"), recV)])
  | [], st, advs, st', advs', h => by
    unfold AdvocateIngester.processRecords at h
    simp only [Except.ok.injEq, Prod.mk.injEq] at h
    obtain ⟨h1, -⟩ := h
    subst h1
    exact Or.inl rfl
  | r :: rs, st, advs, st', advs', h => by
    unfold AdvocateIngester.processRecords at h
    rw [except_bind_ok_iff] at h
    obtain ⟨⟨st1, advs1⟩, h1, h2⟩ := h
    rcases processRecord_failedDir h1 with hk | ⟨errs, recV, hk⟩ <;>
      rcases processRecords_failedDir rs st1 advs1 st' advs' h2 with hk2 | ⟨errs2, recV2, hk2⟩
    · exact Or.inl (by rw [hk2, hk])
    · exact Or.inr ⟨errs2, recV2, by rw [hk2, hk]⟩
    · exact Or.inr ⟨errs, recV, by rw [hk2, hk]⟩
    · rw [hk, writeArtifact_same_name] at hk2
      exact Or.inr ⟨errs2, recV2, hk2⟩

theorem processRecords_total {d : String} {f : IngestFile} :
    ∀ (rs : List PyVal) (st : AdvocateIngester.ProcState) (advs : List Advocate)
      (st' : AdvocateIngester.ProcState) (advs' : List Advocate),
    AdvocateIngester.processRecords d f st advs rs = .ok (st', advs') →
    countValidRecords rs + countInvalidRecords rs = rs.length
  | [], st, advs, st', advs', h => by
    simp [countValidRecords, countInvalidRecords]
  | r :: rs, st, advs, st', advs', h => by
    unfold AdvocateIngester.processRecords at h
    rw [except_bind_ok_iff] at h
    obtain ⟨⟨st1, advs1⟩, h1, h2⟩ := h
    have ih := processRecords_total rs st1 advs1 st' advs' h2
    obtain ⟨-, -, -, -, hcase⟩ := processRecord_inv h1
    simp only [countValidRecords, countInvalidRecords, List.countP_cons, List.length_cons] at ih ⊢
    rcases hcase with ⟨ho, -⟩ | ⟨ho, -⟩ <;> simp only [ho] <;> simp <;> omega

theorem countP_writeArtifact (D : ArtifactDir) (n : String) (p : PyVal) :
    (writeArtifact D n p).countP (fun e => e.1 == n) = 1 := by
  unfold writeArtifact
  rw [List.countP_append]
  have h0 : (List.filter (fun p => p.1 != n) D).countP (fun e => e.1 == n) = 0 := by
    rw [List.countP_eq_zero]
    intro e he
    have := List.of_mem_filter he
    simp only [bne_iff_ne, ne_eq] at this
    simp [this]
  rw [h0]
  simp

/-- C7 amended: a file holding a JSON array of K objects of which J fail
validation contributes exactly K-J to `records_valid` and J to
`records_invalid`, and each quarantine write's payload names the correct
source file — but all the writes for one file target the single artifact
`<stem>_record_invalid.json`, so at most one artifact per source file
remains in the failed-validation directory, however large J is. -/
theorem C7_amended_file_counts_and_quarantine :
    ∀ (d : String) (st : AdvocateIngester.ProcState) (f : IngestFile)
      (records : List PyVal) (st' : AdvocateIngester.ProcState) (advs : List Advocate),
    f.load = .strictOk (.list records) →
    AdvocateIngester._process_file d st f = .ok (st', advs) →
    st'.stats.records_valid = st.stats.records_valid + countValidRecords records ∧
    st'.stats.records_invalid = st.stats.records_invalid + countInvalidRecords records ∧
    countValidRecords records + countInvalidRecords records = records.length ∧
    advs.length = countValidRecords records ∧
    (st'.failedValidationDir = st.failedValidationDir ∨
      ∃ (errs : List String) (recV : PyVal), st'.failedValidationDir =
        writeArtifact st.failedValidationDir (failedArtifactName f)
          (.dict [(("source_file"), .str (d ++ ("/") ++ f.name)),
                  (("validation_errors"), .list (errs.map PyVal.str)),
                  (("record"), recV)])) ∧
    (st.failedValidationDir.countP (fun e => e.1 == failedArtifactName f) = 0 →
      st'.failedValidationDir.countP (fun e => e.1 == failedArtifactName f) ≤ 1) := by
  intro d st f records st' advs hload h
  unfold AdvocateIngester._process_file AdvocateIngester._load_json at h
  rw [hload] at h
  have htot := processRecords_total (flattenPayload (.list records)) _ [] st' advs h
  have hdir := processRecords_failedDir (flattenPayload (.list records)) _ [] st' advs h
  obtain ⟨-, -, -, -, e5, e6, e7, -⟩ :=
    processRecords_inv (flattenPayload (.list records)) _ [] st' advs h
  dsimp only at e5 e6 e7 hdir
  simp only [flattenPayload] at htot e5 e6 e7 hdir
  refine ⟨e5, e6, htot, by simpa using e7, hdir, ?_⟩
  intro hz
  rcases hdir with hdir | ⟨errs, recV, hdir⟩
  · rw [hdir, hz]
    omega
  · rw [hdir, countP_writeArtifact]

/-- Witness for C7's amended theorem: one file, two invalid records. -/
theorem C7_amended_witness :
    (⟨⟨0, 1, 0, 0, 2⟩, [],
      [(("b_record_invalid.json"),
        .dict [(("source_file"), .str ("data/b.json")),
               (("validation_errors"),
                .list [.str ("user_id: string_type")]),
               (("record"),
                .dict [(("user_id"), .none), (("name"), .str ("y")), (("email"), .none),
                       (("instagram_handle"), .none), (("tiktok_handle"), .none),
                       (("joined_at"), .none),
                       (("advocacy_programs"), .list [])])])]⟩ :
        AdvocateIngester.ProcState).stats.records_invalid =
      (⟨IngestStats.init, [], []⟩ : AdvocateIngester.ProcState).stats.records_invalid +
        countInvalidRecords [.dict [(("name"), .str ("x"))], .dict [(("name"), .str ("y"))]] :=
  (C7_amended_file_counts_and_quarantine ("data") ⟨IngestStats.init, [], []⟩
    ⟨("b.json"), .strictOk (.list [.dict [(("name"), .str ("x"))], .dict [(("name"), .str ("y"))]])⟩
    [.dict [(("name"), .str ("x"))], .dict [(("name"), .str ("y"))]]
    _ [] (by decide) (by decide)).2.1

theorem char_eq_of_toNat_eq {c d : Char} (h : c.toNat = d.toNat) : c = d := by
  have := congrArg Char.ofNat h
  rwa [Char.ofNat_toNat, Char.ofNat_toNat] at this

theorem toNat_ofNat_valid {n : Nat} (h : n < 55296) : (Char.ofNat n).toNat = n := by
  have hv : n.isValidChar := Or.inl h
  rw [Char.ofNat, dif_pos hv]
  simp [Char.ofNatAux, Char.toNat, UInt32.toNat, BitVec.toNat_ofNatLt]

theorem toLower_toNat (c : Char) :
    (Char.toLower c).toNat = if 65 ≤ c.toNat ∧ c.toNat ≤ 90 then c.toNat + 32 else c.toNat := by
  unfold Char.toLower
  by_cases h : c.toNat ≥ 65 ∧ c.toNat ≤ 90
  · rw [if_pos h, if_pos ⟨h.1, h.2⟩]
    exact toNat_ofNat_valid (by omega)
  · rw [if_neg h, if_neg (by omega)]

theorem toLower_toLower (c : Char) : Char.toLower (Char.toLower c) = Char.toLower c := by
  apply char_eq_of_toNat_eq
  rw [toLower_toNat, toLower_toNat c]
  by_cases h : 65 ≤ c.toNat ∧ c.toNat ≤ 90
  · rw [if_pos h, if_neg (by omega)]
  · rw [if_neg h, if_neg h]

theorem wsChar_toLower (c : Char) : wsChar (Char.toLower c) = wsChar c := by
  unfold wsChar
  rw [toLower_toNat]
  by_cases h : 65 ≤ c.toNat ∧ c.toNat ≤ 90
  · rw [if_pos h]
    have h1 : (c.toNat + 32 == 32) = false := by
      simp only [beq_eq_false_iff_ne, ne_eq]; omega
    have h2 : (c.toNat + 32 == 9) = false := by
      simp only [beq_eq_false_iff_ne, ne_eq]; omega
    have h3 : (c.toNat + 32 == 13) = false := by
      simp only [beq_eq_false_iff_ne, ne_eq]; omega
    have h4 : (c.toNat + 32 == 10) = false := by
      simp only [beq_eq_false_iff_ne, ne_eq]; omega
    have h5 : (c.toNat == 32) = false := by
      simp only [beq_eq_false_iff_ne, ne_eq]; omega
    have h6 : (c.toNat == 9) = false := by
      simp only [beq_eq_false_iff_ne, ne_eq]; omega
    have h7 : (c.toNat == 13) = false := by
      simp only [beq_eq_false_iff_ne, ne_eq]; omega
    have h8 : (c.toNat == 10) = false := by
      simp only [beq_eq_false_iff_ne, ne_eq]; omega
    rw [h1, h2, h3, h4, h5, h6, h7, h8]
  · rw [if_neg h]

theorem toLower_of_handleChar {c : Char} (h : handleChar c = true) : Char.toLower c = c := by
  apply char_eq_of_toNat_eq
  rw [toLower_toNat]
  unfold handleChar at h
  simp only [Bool.or_eq_true, Bool.and_eq_true, decide_eq_true_eq, beq_iff_eq] at h
  rw [if_neg (by omega)]

theorem wsChar_of_handleChar {c : Char} (h : handleChar c = true) : wsChar c = false := by
  unfold handleChar at h
  unfold wsChar
  simp only [Bool.or_eq_true, Bool.and_eq_true, decide_eq_true_eq, beq_iff_eq] at h
  simp only [Bool.or_eq_false_iff, beq_eq_false_iff_ne, ne_eq]
  omega

theorem dropWhile_dropWhile (p : Char → Bool) :
    ∀ l : List Char, (l.dropWhile p).dropWhile p = l.dropWhile p
  | [] => rfl
  | c :: l => by
    cases hp : p c with
    | true => simp only [List.dropWhile_cons, hp, if_true]; exact dropWhile_dropWhile p l
    | false => simp [List.dropWhile_cons, hp]

/-- `true` when the list does not start with a whitespace character. -/
def firstNotWs : List Char → Bool
  | [] => true
  | c :: _ => !wsChar c

theorem firstNotWs_dropWhile : ∀ l : List Char, firstNotWs (l.dropWhile wsChar) = true
  | [] => rfl
  | c :: l => by
    cases hp : wsChar c with
    | true => simp only [List.dropWhile_cons, hp, if_true]; exact firstNotWs_dropWhile l
    | false => simp [List.dropWhile_cons, hp, firstNotWs]

theorem dropWhile_eq_self_of_firstNotWs :
    ∀ {l : List Char}, firstNotWs l = true → l.dropWhile wsChar = l
  | [], _ => rfl
  | c :: l, h => by
    simp only [firstNotWs, Bool.not_eq_true'] at h
    simp [List.dropWhile_cons, h]

theorem dropWhile_append_notWs {c : Char} (hc : wsChar c = false) :
    ∀ y : List Char, ∃ z, (y ++ [c]).dropWhile wsChar = z ++ [c]
  | [] => ⟨[], by simp [List.dropWhile_cons, hc]⟩
  | a :: y => by
    cases hp : wsChar a with
    | true =>
      obtain ⟨z, hz⟩ := dropWhile_append_notWs hc y
      exact ⟨z, by simpa [List.dropWhile_cons, hp] using hz⟩
    | false => exact ⟨a :: y, by simp [List.dropWhile_cons, hp]⟩

/-- Both-ends strip on character lists (the list body of `pyStrip`). -/
def stripL (l : List Char) : List Char :=
  ((l.dropWhile wsChar).reverse.dropWhile wsChar).reverse

theorem pyStrip_toList (s : String) : (pyStrip s).toList = stripL s.toList := rfl

theorem firstNotWs_stripL (l : List Char) : firstNotWs (stripL l) = true := by
  unfold stripL
  cases hu : (l.dropWhile wsChar) with
  | nil => simp [firstNotWs]
  | cons c u =>
    have hc : wsChar c = false := by
      have := firstNotWs_dropWhile l
      rw [hu] at this
      simpa [firstNotWs] using this
    have hrev : (c :: u).reverse = u.reverse ++ [c] := by simp
    rw [hrev]
    obtain ⟨z, hz⟩ := dropWhile_append_notWs hc u.reverse
    rw [hz]
    simp [firstNotWs, hc]

theorem stripL_idem (l : List Char) : stripL (stripL l) = stripL l := by
  have h1 : (stripL l).dropWhile wsChar = stripL l :=
    dropWhile_eq_self_of_firstNotWs (firstNotWs_stripL l)
  show (((stripL l).dropWhile wsChar).reverse.dropWhile wsChar).reverse = stripL l
  rw [h1]
  unfold stripL
  rw [List.reverse_reverse, dropWhile_dropWhile]

theorem dropWhile_map_toLower :
    ∀ l : List Char, (l.map Char.toLower).dropWhile wsChar = (l.dropWhile wsChar).map Char.toLower
  | [] => rfl
  | c :: l => by
    cases hp : wsChar c with
    | true =>
      simp only [List.map_cons, List.dropWhile_cons, wsChar_toLower, hp, if_true]
      exact dropWhile_map_toLower l
    | false => simp [List.map_cons, List.dropWhile_cons, wsChar_toLower, hp]

theorem stripL_map_toLower (l : List Char) :
    stripL (l.map Char.toLower) = (stripL l).map Char.toLower := by
  unfold stripL
  rw [dropWhile_map_toLower, ← List.map_reverse, dropWhile_map_toLower, ← List.map_reverse]

theorem map_toLower_idem (l : List Char) :
    (l.map Char.toLower).map Char.toLower = l.map Char.toLower := by
  rw [List.map_map]
  apply List.map_congr_left
  intro a _
  exact toLower_toLower a

theorem pyLower_pyStrip_fixed (s : String) :
    pyStrip (pyLower (pyStrip s)) = pyLower (pyStrip s) ∧
    pyLower (pyLower (pyStrip s)) = pyLower (pyStrip s) := by
  constructor
  · apply congrArg String.mk
    show stripL ((stripL s.toList).map Char.toLower) = (stripL s.toList).map Char.toLower
    rw [stripL_map_toLower, stripL_idem]
  · apply congrArg String.mk
    exact map_toLower_idem (stripL s.toList)

theorem truthy_str_of_ne {s : String} (h : s.toList ≠ []) : truthy (.str s) = true := by
  simp only [truthy, bne_iff_ne, ne_eq]
  intro he
  apply h
  rw [he]
  rfl

theorem dropWhile_head_false (p : Char → Bool) :
    ∀ (l : List Char) (c : Char) (u : List Char), l.dropWhile p = c :: u → p c = false
  | [], c, u, h => by cases h
  | a :: l, c, u, h => by
    cases hp : p a with
    | true =>
      rw [List.dropWhile_cons, if_pos hp] at h
      exact dropWhile_head_false p l c u h
    | false =>
      rw [List.dropWhile_cons, if_neg (by simp [hp])] at h
      cases h
      exact hp

theorem emailShape_nonempty {cs : List Char} (h : emailShape cs = true) : cs ≠ [] := by
  intro he
  subst he
  simp [emailShape] at h

theorem emailShape_contains {cs : List Char} (h : emailShape cs = true) :
    cs.contains ('@') = true := by
  unfold emailShape at h
  rw [List.span_eq_take_drop] at h
  cases hd : cs.dropWhile (fun c => c != ('@')) with
  | nil => rw [hd] at h; simp at h
  | cons c u =>
    have hc : (c != ('@')) = false := dropWhile_head_false _ cs c u hd
    have hceq : c = ('@') := by simpa using hc
    have hmem : ('@') ∈ cs := by
      have : c ∈ cs.dropWhile (fun c => c != ('@')) := by rw [hd]; exact List.mem_cons_self c u
      rw [hceq] at this
      exact List.dropWhile_sublist _ |>.mem this
    simpa [List.contains] using hmem

theorem clean_email_output_idem {v r : PyVal} (h : CleaningUtils.clean_email v = .ok r) :
    CleaningUtils.clean_email r = .ok r := by
  unfold CleaningUtils.clean_email at h
  cases ht : truthy v with
  | false =>
    rw [ht] at h
    simp only [Bool.not_false, if_true, Except.ok.injEq] at h
    subst h
    rfl
  | true =>
    rw [ht] at h
    simp only [Bool.not_true, Bool.false_eq_true, if_false] at h
    cases hc : containsAt v with
    | error e => rw [hc] at h; cases h
    | ok b =>
      rw [hc] at h
      cases b with
      | false =>
        simp only [Except.ok.injEq] at h
        subst h
        rfl
      | true =>
        cases v with
        | str s =>
          dsimp only at h
          cases hm : emailShape (pyLower (pyStrip s)).data with
          | false =>
            rw [if_neg (by simp [hm])] at h
            simp only [Except.ok.injEq] at h
            subst h
            rfl
          | true =>
            rw [if_pos (by simp [hm])] at h
            simp only [Except.ok.injEq] at h
            subst h
            have hne : (pyLower (pyStrip s)).toList ≠ [] := emailShape_nonempty hm
            have hfix := pyLower_pyStrip_fixed s
            unfold CleaningUtils.clean_email
            rw [truthy_str_of_ne hne]
            simp only [Bool.not_true, Bool.false_eq_true, if_false, containsAt,
              @emailShape_contains ((pyLower (pyStrip s)).toList) hm]
            rw [hfix.1, hfix.2]
            rw [if_pos (by exact hm)]
        | none => cases h
        | bool b2 => cases h
        | int n => cases h
        | float q => cases h
        | list xs => cases h
        | dict kvs => cases h
        | date dd => cases h

theorem clean_date_shape (v : PyVal) :
    CleaningUtils.clean_date v = .none ∨ ∃ d, CleaningUtils.clean_date v = .date d := by
  unfold CleaningUtils.clean_date
  cases ht : truthy v with
  | false => simp
  | true =>
    simp only [Bool.not_true, Bool.false_eq_true, if_false]
    cases v with
    | str s =>
      dsimp only
      cases hp : pyFromIso ⟨replaceZ s.toList⟩ with
      | none => exact Or.inl rfl
      | some d => exact Or.inr ⟨d, rfl⟩
    | none => exact Or.inl rfl
    | bool b => exact Or.inl rfl
    | int n => exact Or.inl rfl
    | float q => exact Or.inl rfl
    | list xs => exact Or.inl rfl
    | dict kvs => exact Or.inl rfl
    | date dd => exact Or.inl rfl

theorem clean_date_clean_date (v : PyVal) :
    CleaningUtils.clean_date (CleaningUtils.clean_date v) = .none := by
  rcases clean_date_shape v with h | ⟨d, h⟩
  · rw [h]
    rfl
  · rw [h]
    rfl

theorem dropWhile_of_no_ws {l : List Char} (h : ∀ c ∈ l, wsChar c = false) :
    l.dropWhile wsChar = l := by
  cases l with
  | nil => rfl
  | cons c t => simp [List.dropWhile_cons, h c (List.mem_cons_self c t)]

theorem stripL_of_no_ws {l : List Char} (h : ∀ c ∈ l, wsChar c = false) :
    stripL l = l := by
  unfold stripL
  rw [dropWhile_of_no_ws h, dropWhile_of_no_ws (fun c hc => h c (List.mem_reverse.mp hc)),
    List.reverse_reverse]

theorem pyStrip_idem (s : String) : pyStrip (pyStrip s) = pyStrip s :=
  congrArg String.mk (stripL_idem s.toList)

theorem string_mk_toList (s : String) : (⟨s.toList⟩ : String) = s := rfl

theorem clean_handle_output_idem {v r : PyVal} (h : CleaningUtils.clean_handle v = .ok r) :
    CleaningUtils.clean_handle r = .ok r := by
  unfold CleaningUtils.clean_handle at h
  cases ht : truthy v with
  | false =>
    rw [ht] at h
    simp only [Bool.not_false, if_true, Except.ok.injEq] at h
    subst h
    rfl
  | true =>
    rw [ht] at h
    simp only [Bool.not_true, Bool.false_eq_true, if_false] at h
    cases v with
    | str s =>
      simp only [Except.ok.injEq] at h
      subst h
      set t : String := ⟨(pyLower (pyStrip s)).toList.filter handleChar⟩ with hT
      set h2 : String := if startsWithAtSign t then t else ("@") ++ t with hH
      have hall : ∀ c ∈ h2.toList, handleChar c = true := by
        intro c hc
        rw [hH] at hc
        by_cases hsw : startsWithAtSign t
        · rw [if_pos hsw] at hc
          exact List.of_mem_filter hc
        · rw [if_neg hsw] at hc
          have : c ∈ ('@') :: (pyLower (pyStrip s)).toList.filter handleChar := hc
          rcases List.mem_cons.mp this with hx1 | hx2
          · rw [hx1]; decide
          · exact List.of_mem_filter hx2
      have hsw2 : startsWithAtSign h2 = true := by
        rw [hH]
        by_cases hsw : startsWithAtSign t
        · rw [if_pos hsw]; exact hsw
        · rw [if_neg hsw]; rfl
      have hne : h2.toList ≠ [] := by
        intro hemp
        rw [startsWithAtSign] at hsw2
        rw [hemp] at hsw2
        cases hsw2
      have hstrip : pyStrip h2 = h2 := by
        apply congrArg String.mk
        exact stripL_of_no_ws (fun c hc => wsChar_of_handleChar (hall c hc))
      have hlower : pyLower h2 = h2 := by
        apply congrArg String.mk
        show h2.toList.map Char.toLower = h2.toList
        have hmap : h2.toList.map Char.toLower = h2.toList.map id :=
          List.map_congr_left (fun c hc => toLower_of_handleChar (hall c hc))
        rw [hmap, List.map_id]
      have hfilter : h2.toList.filter handleChar = h2.toList :=
        List.filter_eq_self.mpr hall
      unfold CleaningUtils.clean_handle
      rw [truthy_str_of_ne hne]
      simp only [Bool.not_true, Bool.false_eq_true, if_false]
      rw [hstrip, hlower, hfilter, string_mk_toList, hsw2]
      simp
    | none => cases h
    | bool b => cases h
    | int n => cases h
    | float q => cases h
    | list xs => cases h
    | dict kvs => cases h
    | date dd => cases h

theorem clean_url_idem (v : PyVal) :
    CleaningUtils.clean_url (CleaningUtils.clean_url v) = CleaningUtils.clean_url v := by
  unfold CleaningUtils.clean_url
  cases v with
  | str s =>
    cases ht : truthy (.str s) with
    | false => simp [ht]
    | true =>
      simp only [ht, Bool.not_true, Bool.false_eq_true, if_false]
      cases hcond : ((pyUrlparse (pyStrip s)).1 != "" && (pyUrlparse (pyStrip s)).2 != "") with
      | false => simp [hcond]
      | true =>
        simp only [hcond, if_true]
        have hne : (pyStrip s).toList ≠ [] := by
          intro hemp
          have hu : pyStrip s = "" := by
            have := congrArg (fun l => (⟨l⟩ : String)) hemp
            simpa [string_mk_toList] using this
          rw [hu] at hcond
          cases hcond
        rw [truthy_str_of_ne hne]
        simp only [Bool.not_true, Bool.false_eq_true, if_false]
        rw [pyStrip_idem]
        rw [hcond]
        simp
  | none => rfl
  | bool b => rfl
  | int n => rfl
  | float q => rfl
  | list xs => rfl
  | dict kvs => rfl
  | date dd => rfl

theorem clean_int_shape (v : PyVal) : ∃ n, CleaningUtils.clean_int v = .int n := by
  unfold CleaningUtils.clean_int
  cases v with
  | none => exact ⟨0, rfl⟩
  | bool b => exact ⟨_, rfl⟩
  | int n => exact ⟨n, rfl⟩
  | float q => exact ⟨_, rfl⟩
  | str s =>
    cases hp : pyInt (.str s) with
    | none => exact ⟨0, rfl⟩
    | some n => exact ⟨n, rfl⟩
  | list xs => exact ⟨0, rfl⟩
  | dict kvs => exact ⟨0, rfl⟩
  | date dd => exact ⟨0, rfl⟩

theorem clean_int_idem (v : PyVal) :
    CleaningUtils.clean_int (CleaningUtils.clean_int v) = CleaningUtils.clean_int v := by
  obtain ⟨n, hn⟩ := clean_int_shape v
  rw [hn]
  rfl

theorem clean_float_shape (v : PyVal) : ∃ f, CleaningUtils.clean_float v = .float f := by
  unfold CleaningUtils.clean_float
  cases v with
  | none => exact ⟨_, rfl⟩
  | bool b => exact ⟨_, rfl⟩
  | int n => exact ⟨_, rfl⟩
  | float q => exact ⟨q, rfl⟩
  | str s =>
    cases hp : pyFloat (.str s) with
    | none => exact ⟨_, rfl⟩
    | some f => exact ⟨f, rfl⟩
  | list xs => exact ⟨_, rfl⟩
  | dict kvs => exact ⟨_, rfl⟩
  | date dd => exact ⟨_, rfl⟩

theorem clean_float_idem (v : PyVal) :
    CleaningUtils.clean_float (CleaningUtils.clean_float v) = CleaningUtils.clean_float v := by
  obtain ⟨f, hf⟩ := clean_float_shape v
  rw [hf]
  rfl

theorem exceptMapList_mem_ok {g : PyVal → Except PyErr PyVal} :
    ∀ {xs ys : List PyVal}, exceptMapList g xs = .ok ys → ∀ y ∈ ys, ∃ x, g x = .ok y := by
  intro xs
  induction xs with
  | nil =>
    intro ys h y hy
    unfold exceptMapList at h
    simp only [Except.ok.injEq] at h
    subst h
    cases hy
  | cons x xs ih =>
    intro ys h y hy
    unfold exceptMapList at h
    rw [except_bind_ok_iff] at h
    obtain ⟨a, ha, h⟩ := h
    rw [except_bind_ok_iff] at h
    obtain ⟨bs, hbs, h⟩ := h
    simp only [Pure.pure, Except.pure, Except.ok.injEq] at h
    subst h
    rcases List.mem_cons.mp hy with hy1 | hy2
    · exact ⟨x, by rw [ha, hy1]⟩
    · exact ih hbs y hy2

theorem exceptMapList_fixed {g : PyVal → Except PyErr PyVal} :
    ∀ {ys : List PyVal}, (∀ y ∈ ys, g y = .ok y) → exceptMapList g ys = .ok ys := by
  intro ys
  induction ys with
  | nil => intro _; rfl
  | cons y ys ih =>
    intro h
    unfold exceptMapList
    rw [h y (List.mem_cons_self y ys), ih (fun a ha => h a (List.mem_cons_of_mem y ha))]
    rfl

theorem pyIterMap_mem_ok {g : PyVal → Except PyErr PyVal} {v : PyVal} {ys : List PyVal}
    (h : pyIterMap g v = .ok ys) : ∀ y ∈ ys, ∃ x, g x = .ok y := by
  unfold pyIterMap at h
  cases v with
  | list xs => exact exceptMapList_mem_ok h
  | dict kvs => exact exceptMapList_mem_ok h
  | str s => exact exceptMapList_mem_ok h
  | none => cases h
  | bool b => cases h
  | int n => cases h
  | float q => cases h
  | date dd => cases h

theorem clean_task_output_idem {t t' : PyVal}
    (h : AdvocateIngester._clean_task t = .ok t') :
    AdvocateIngester._clean_task t' = .ok t' := by
  cases t with
  | dict kvs =>
    unfold AdvocateIngester._clean_task at h
    simp only [pyGet, Bind.bind, Except.bind, Pure.pure, Except.pure, Except.ok.injEq] at h
    subst h
    unfold AdvocateIngester._clean_task
    simp only [pyGet, Bind.bind, Except.bind, Pure.pure, Except.pure, lookup?, List.find?,
      String.reduceBEq, Option.map_some, Option.getD_some]
    simp only [Option.map_some', Option.getD_some]
    rw [clean_url_idem, clean_int_idem, clean_int_idem, clean_int_idem, clean_int_idem]
  | none => simp [AdvocateIngester._clean_task, pyGet, Bind.bind, Except.bind] at h
  | bool b => simp [AdvocateIngester._clean_task, pyGet, Bind.bind, Except.bind] at h
  | int n => simp [AdvocateIngester._clean_task, pyGet, Bind.bind, Except.bind] at h
  | float q => simp [AdvocateIngester._clean_task, pyGet, Bind.bind, Except.bind] at h
  | str s => simp [AdvocateIngester._clean_task, pyGet, Bind.bind, Except.bind] at h
  | list xs => simp [AdvocateIngester._clean_task, pyGet, Bind.bind, Except.bind] at h
  | date dd => simp [AdvocateIngester._clean_task, pyGet, Bind.bind, Except.bind] at h

theorem progid_clean_idem (v : PyVal) :
    (if truthy (if truthy v = true then v else PyVal.none) = true
     then (if truthy v = true then v else PyVal.none) else PyVal.none)
    = (if truthy v = true then v else PyVal.none) := by
  by_cases ht : truthy v = true
  · simp [ht]
  · rw [if_neg ht]
    exact ite_self PyVal.none

theorem clean_program_output_idem {p p' : PyVal}
    (h : AdvocateIngester._clean_program p = .ok p') :
    AdvocateIngester._clean_program p' = .ok p' := by
  cases p with
  | dict kvs =>
    unfold AdvocateIngester._clean_program at h
    simp only [pyGet, pyGetD, Bind.bind, Except.bind] at h
    cases hts : pyIterMap AdvocateIngester._clean_task
        ((lookup? kvs ("tasks_completed")).getD (.list [])) with
    | error e => rw [hts] at h; cases h
    | ok ts =>
      rw [hts] at h
      simp only [Pure.pure, Except.pure, Except.ok.injEq] at h
      subst h
      have hts2 : exceptMapList AdvocateIngester._clean_task ts = .ok ts :=
        exceptMapList_fixed (fun y hy => by
          obtain ⟨x, hx⟩ := pyIterMap_mem_ok hts y hy
          exact clean_task_output_idem hx)
      unfold AdvocateIngester._clean_program
      simp only [pyGet, pyGetD, Bind.bind, Except.bind, Pure.pure, Except.pure, lookup?,
        List.find?, String.reduceBEq, Option.map_some, Option.map_some', Option.getD_some,
        pyIterMap, hts2]
      rw [clean_float_idem]
      rw [progid_clean_idem]
      cases hb : (Option.map Prod.snd (List.find? (fun p => p.1 == ("brand")) kvs)).getD
          PyVal.none with
      | none => rfl
      | bool b => rfl
      | int n => rfl
      | float q => rfl
      | str s => rfl
      | list xs => rfl
      | dict d => rfl
      | date dd => rfl
  | none => simp [AdvocateIngester._clean_program, pyGet, Bind.bind, Except.bind] at h
  | bool b => simp [AdvocateIngester._clean_program, pyGet, Bind.bind, Except.bind] at h
  | int n => simp [AdvocateIngester._clean_program, pyGet, Bind.bind, Except.bind] at h
  | float q => simp [AdvocateIngester._clean_program, pyGet, Bind.bind, Except.bind] at h
  | str s => simp [AdvocateIngester._clean_program, pyGet, Bind.bind, Except.bind] at h
  | list xs => simp [AdvocateIngester._clean_program, pyGet, Bind.bind, Except.bind] at h
  | date dd => simp [AdvocateIngester._clean_program, pyGet, Bind.bind, Except.bind] at h

/-- C6 (amended): cleaning is idempotent on every field except
`joined_at`.  Re-cleaning any successfully cleaned record succeeds and
yields the cleaned record with `joined_at` replaced by absent (the
second `clean_date` receives a datetime or `None` and returns `None`),
and re-cleaning is a true fixed point exactly when that replacement is
the identity, i.e. when the cleaned `joined_at` is already absent. -/
theorem C6_amended_idempotent_except_joined_at (r c : PyVal)
    (h : AdvocateIngester._clean_advocate r = .ok c) :
    AdvocateIngester._clean_advocate c = .ok (setJoinedAtNone c) ∧
    (AdvocateIngester._clean_advocate c = .ok c ↔ setJoinedAtNone c = c) := by
  cases r with
  | dict kvs =>
    unfold AdvocateIngester._clean_advocate at h
    simp only [pyGet, pyGetD, Bind.bind, Except.bind] at h
    cases hem : CleaningUtils.clean_email ((lookup? kvs ("email")).getD .none) with
    | error e => rw [hem] at h; cases h
    | ok emc =>
      rw [hem] at h
      cases hig : CleaningUtils.clean_handle ((lookup? kvs ("instagram_handle")).getD .none) with
      | error e => rw [hig] at h; cases h
      | ok igc =>
        rw [hig] at h
        cases htk : CleaningUtils.clean_handle ((lookup? kvs ("tiktok_handle")).getD .none) with
        | error e => rw [htk] at h; cases h
        | ok tkc =>
          rw [htk] at h
          cases hps : pyIterMap AdvocateIngester._clean_program
              ((lookup? kvs ("advocacy_programs")).getD (.list [])) with
          | error e => rw [hps] at h; cases h
          | ok progs =>
            rw [hps] at h
            simp only [Pure.pure, Except.pure, Except.ok.injEq] at h
            subst h
            have hps2 : exceptMapList AdvocateIngester._clean_program progs = .ok progs :=
              exceptMapList_fixed (fun y hy => by
                obtain ⟨x, hx⟩ := pyIterMap_mem_ok hps y hy
                exact clean_program_output_idem hx)
            unfold AdvocateIngester._clean_advocate
            simp only [pyGet, pyGetD, Bind.bind, Except.bind, Pure.pure, Except.pure, lookup?,
              List.find?, String.reduceBEq, Option.map_some, Option.map_some', Option.getD_some,
              pyIterMap, hps2]
            rw [clean_email_output_idem hem, clean_handle_output_idem hig,
              clean_handle_output_idem htk]
            simp only [Bind.bind, Except.bind, Pure.pure, Except.pure]
            rw [clean_date_clean_date]
            simp only [setJoinedAtNone, List.map, String.reduceBEq, Bool.false_eq_true,
              if_false, if_true, Except.ok.injEq, PyVal.dict.injEq]
            exact ⟨trivial, trivial⟩
  | none => simp [AdvocateIngester._clean_advocate, pyGet, Bind.bind, Except.bind] at h
  | bool b => simp [AdvocateIngester._clean_advocate, pyGet, Bind.bind, Except.bind] at h
  | int n => simp [AdvocateIngester._clean_advocate, pyGet, Bind.bind, Except.bind] at h
  | float q => simp [AdvocateIngester._clean_advocate, pyGet, Bind.bind, Except.bind] at h
  | str s => simp [AdvocateIngester._clean_advocate, pyGet, Bind.bind, Except.bind] at h
  | list xs => simp [AdvocateIngester._clean_advocate, pyGet, Bind.bind, Except.bind] at h
  | date dd => simp [AdvocateIngester._clean_advocate, pyGet, Bind.bind, Except.bind] at h

/-- C6 witness: the amended idempotence theorem instantiated at a concrete
record whose `joined_at` cleans to a datetime. -/
theorem C6_amended_witness :
    AdvocateIngester._clean_advocate
        (.dict [(("user_id"), .str ("u")), (("name"), .str ("n")),
                (("joined_at"), .str ("2024-01-01T00:00:00Z"))])
      = .ok (.dict [(("user_id"), .str ("u")), (("name"), .str ("n")), (("email"), .none),
                    (("instagram_handle"), .none), (("tiktok_handle"), .none),
                    (("joined_at"), .date ⟨2024, 1, 1, 0, 0, 0, some 0⟩),
                    (("advocacy_programs"), .list [])]) ∧
    (AdvocateIngester._clean_advocate
        (.dict [(("user_id"), .str ("u")), (("name"), .str ("n")), (("email"), .none),
                (("instagram_handle"), .none), (("tiktok_handle"), .none),
                (("joined_at"), .date ⟨2024, 1, 1, 0, 0, 0, some 0⟩),
                (("advocacy_programs"), .list [])])
      = .ok (setJoinedAtNone
          (.dict [(("user_id"), .str ("u")), (("name"), .str ("n")), (("email"), .none),
                  (("instagram_handle"), .none), (("tiktok_handle"), .none),
                  (("joined_at"), .date ⟨2024, 1, 1, 0, 0, 0, some 0⟩),
                  (("advocacy_programs"), .list [])])) ∧
     (AdvocateIngester._clean_advocate
        (.dict [(("user_id"), .str ("u")), (("name"), .str ("n")), (("email"), .none),
                (("instagram_handle"), .none), (("tiktok_handle"), .none),
                (("joined_at"), .date ⟨2024, 1, 1, 0, 0, 0, some 0⟩),
                (("advocacy_programs"), .list [])])
      = .ok (.dict [(("user_id"), .str ("u")), (("name"), .str ("n")), (("email"), .none),
                    (("instagram_handle"), .none), (("tiktok_handle"), .none),
                    (("joined_at"), .date ⟨2024, 1, 1, 0, 0, 0, some 0⟩),
                    (("advocacy_programs"), .list [])])
        ↔ setJoinedAtNone
            (.dict [(("user_id"), .str ("u")), (("name"), .str ("n")), (("email"), .none),
                    (("instagram_handle"), .none), (("tiktok_handle"), .none),
                    (("joined_at"), .date ⟨2024, 1, 1, 0, 0, 0, some 0⟩),
                    (("advocacy_programs"), .list [])])
          = (.dict [(("user_id"), .str ("u")), (("name"), .str ("n")), (("email"), .none),
                    (("instagram_handle"), .none), (("tiktok_handle"), .none),
                    (("joined_at"), .date ⟨2024, 1, 1, 0, 0, 0, some 0⟩),
                    (("advocacy_programs"), .list [])]))) :=
  ⟨by decide,
    C6_amended_idempotent_except_joined_at
      (.dict [(("user_id"), .str ("u")), (("name"), .str ("n")),
              (("joined_at"), .str ("2024-01-01T00:00:00Z"))])
      (.dict [(("user_id"), .str ("u")), (("name"), .str ("n")), (("email"), .none),
              (("instagram_handle"), .none), (("tiktok_handle"), .none),
              (("joined_at"), .date ⟨2024, 1, 1, 0, 0, 0, some 0⟩),
              (("advocacy_programs"), .list [])])
      (by decide)⟩
